import Mathlib

/-!
# The wallet module of the iExec SDK (`src/wallet.js`)

A shallow embedding of `wallet.js`.  Every `async` function of the module becomes a
program of type `Prog α`: a function from the history of the calls made so far to an
outcome (a value or a thrown error) and the extended history.  Everything the module takes
from outside (file system, terminal, HTTP, key derivation, `utils.js`, `web3`, the contract
description `rlcJSON`) is a field of `Env`; the answer of an effectful collaborator may
depend on the whole history, so an environment is an arbitrary deterministic world.

Numbers.  A token balance is a big number holding a natural number; what `sendRLC` and
`sweep` do with it (`toNumber()`, the text in a template literal, `parseInt`) is modelled
exactly, doubles included, on integers.  An ether amount is a JavaScript value of an
abstract type `Num`, whose subtraction, comparison with zero and text are fields of `Env`:
every statement holds whatever the arithmetic of doubles makes of them.

The calls of `debug`, which only write diagnostics, are left out.
-/

namespace Iexec

/-! ## Data model -/

/-- A thrown JavaScript value: the constructor name, the `code` of a file-system error
(`error.code`) and the message -/
structure Err where
  name : String
  code : Option String
  message : String
  deriving DecidableEq

/-- The value of `Error(message)` -/
def jsError (message : String) : Err := ⟨"Error", none, message⟩

/-- The value thrown when a property of `undefined` is read -/
def typeError (message : String) : Err := ⟨"TypeError", none, message⟩

/-- The text of an error inside a template literal -/
def Err.render (e : Err) : String := e.name ++ ": " ++ e.message

/-- The object `walletFromPrivKey` and `genKeyPair` return -/
structure Wallet where
  privateKey : Option String
  publicKey : String
  address : String
  deriving DecidableEq

/-- One entry of `utils.getChains()` -/
structure Chain where
  id : String
  name : String
  deriving DecidableEq

/-- A JSON value as far as the module builds or prints one: `raw text` is a value received
from outside, given by its tab-indented rendering; `obj1 key value` is the one-field object
literal with a string value -/
inductive Json
  | raw (text : String)
  | obj1 (key value : String)
  deriving DecidableEq

/-- The rendering `JSON.stringify(x, null, TAB)` for the values of `Json` (the keys and values
of the object literals of the module need no escaping) -/
def Json.stringify : Json → String
  | .raw text => text
  | .obj1 key value => "\x7b\n\t\"" ++ key ++ "\": \"" ++ value ++ "\"\n\x7d"

/-- The argument of `fetch`: the address, and the options when there are some -/
structure Request where
  url : String
  method : String
  headers : List (String × String)
  body : Option Json
  deriving DecidableEq

/-- The answer of `fetch`, with the outcome of reading its body as JSON (`res.json()`) -/
structure Response where
  json : Except Err Json

/-- An integral JavaScript number: the values `parseInt` and `toNumber()` of an integer
big number can take -/
inductive JSInt
  | nan
  | infinity (negative : Bool)
  | int (value : Int)
  deriving DecidableEq

/-- The call data `rlcContract.transfer.getData(toAddress, transferAmount)` -/
structure TransferData where
  toAddress : String
  amount : JSInt
  deriving DecidableEq

/-- The argument of `utils.signAndSendTx` -/
structure TxRequest where
  chain : Chain
  userWallet : Wallet
  unsignedTx : Option TransferData
  contractAddress : String
  value : Option String
  deriving DecidableEq

/-- A transaction receipt -/
structure Receipt where
  transactionHash : String
  gasUsed : Nat
  deriving DecidableEq

/-- A transaction as `getTransaction` returns it; `gas` is the gas limit that was sent -/
structure Tx where
  gas : Nat
  deriving DecidableEq

/-- The big number `web3.fromWei(balance, ETHER)`, that is `wei / 10^18`, kept exact by
its numerator -/
structure Ether where
  wei : Nat
  deriving DecidableEq

/-- The calls the module makes to the outside, in the order it makes them -/
inductive Event
  | readFile (file encoding : String)
  | fsOpen (file flags : String)
  | fsWrite (fd : Nat) (data : String)
  | fsClose (fd : Nat)
  | writeFile (file data : String)
  | prompt (name message : String)
  | genKeyPair
  | consoleLog (text : String)
  | spinner (method text : String)
  | fetch (req : Request)
  | getBalance (chain : Chain) (address : String)
  | balanceOf (chain : Chain) (contract owner : String)
  | signAndSendTx (tx : TxRequest)
  | waitFor (chain : Chain) (txHash : String)
  | getTransaction (chain : Chain) (txHash : String)
  deriving DecidableEq

abbrev History := List Event

/-- Everything `wallet.js` takes from outside.  `Num` is the type of the JavaScript values
used as ether amounts (IEEE doubles in `sweep`); their arithmetic is not fixed here.  The
functions of `utils.js` (`getChains`, `getOracleWallet`, `getFaucetWallet`,
`chainToEtherscanURL`, `signAndSendTx`, `waitFor`) are parameters as well: that file is not
among the sources -/
structure Env (Num : Type) where
  /-- `fs.readFile` -/
  readFile : History → String → String → Except Err String
  /-- `fs.open` -/
  fsOpen : History → String → String → Except Err Nat
  /-- `fs.write` -/
  fsWrite : History → Nat → String → Except Err Unit
  /-- `fs.close` -/
  fsClose : History → Nat → Except Err Unit
  /-- `fs.writeFile` -/
  writeFile : History → String → String → Except Err Unit
  /-- `inquirer.prompt` with one confirm question: its name and message -/
  prompt : History → String → String → Except Err Bool
  /-- `genKeyPair` of ethereumjs-tx-sign -/
  genKeyPair : History → Except Err Wallet
  privateToPublic : Option String → Except Err String
  publicToAddress : String → Except Err String
  /-- `JSON.stringify(userWallet, null, 4)` -/
  stringifyWallet : Wallet → String
  /-- `JSON.parse(text).privateKey`; `none` is `undefined` -/
  parsePrivateKey : String → Except Err (Option String)
  /-- `fetch` of node-fetch -/
  fetch : History → Request → Except Err Response
  /-- The order in which the promises of a `Promise.all` settle (indices into its array) -/
  completionOrder : History → List Nat
  /-- `utils.getChains()`: chains by name and by id -/
  getChains : Except Err (String → Option Chain)
  /-- `Object.keys(utils.truffleConfig.networks)` -/
  networkNames : List String
  /-- `rlcJSON.networks`: chain id and the address of the token contract there -/
  rlcNetworks : List (String × String)
  getOracleWallet : String → Except Err String
  getFaucetWallet : String → Except Err String
  chainToEtherscanURL : String → String
  signAndSendTx : History → TxRequest → Except Err String
  /-- `utils.waitFor(chain.web3.eth.getTransactionReceiptAsync, txHash)` -/
  waitFor : History → Chain → String → Except Err Receipt
  getBalance : History → Chain → String → Except Err Nat
  balanceOf : History → Chain → String → String → Except Err Nat
  /-- `chain.web3.eth.getTransactionAsync(txHash)`; `none` is `null` -/
  getTransaction : History → Chain → String → Except Err (Option Tx)
  /-- `chain.web3.toWei(amount, ETHER)` -/
  toWei : Num → String
  /-- `ethBalance.toNumber()` -/
  toNumber : Ether → Num
  /-- The literal `0.01` -/
  reserve : Num
  /-- `a - b` on numbers -/
  sub : Num → Num → Num
  /-- `a > 0` on numbers -/
  gtZero : Num → Bool
  /-- The text of a number inside a template literal -/
  numToString : Num → String
  /-- The text of an ether big number inside a template literal -/
  etherToString : Ether → String

/-! ## Programs -/

/-- An `async` computation: from the history so far to its outcome and the history
extended by the calls it made -/
def Prog (α : Type) : Type := History → Except Err α × History

/-- Sequencing: the second part runs only when the first returned -/
def Prog.bind {α β : Type} (m : Prog α) (f : α → Prog β) : Prog β := fun h =>
  match m h with
  | (.ok a, h1) => f a h1
  | (.error e, h1) => (.error e, h1)

instance : Monad Prog where
  pure a := fun h => (.ok a, h)
  bind := Prog.bind

/-- The statement `throw e` -/
def raise {α : Type} (e : Err) : Prog α := fun h => (.error e, h)

/-- The statement `try m catch (error) handler` -/
def attempt {α : Type} (m : Prog α) (handler : Err → Prog α) : Prog α := fun h =>
  match m h with
  | (.ok a, h1) => (.ok a, h1)
  | (.error e, h1) => handler e h1

/-- A call that is awaited at once: it is recorded and its outcome is the outcome here -/
def call {α : Type} (ev : Event) (oracle : History → Except Err α) : Prog α := fun h =>
  (oracle h, h ++ [ev])

/-- A call whose promise is kept: it is recorded and its outcome is a value -/
def issue {α : Type} (ev : Event) (oracle : History → Except Err α) : Prog (Except Err α) :=
  fun h => (.ok (oracle h), h ++ [ev])

/-- A synchronous library call that may throw -/
def lift {α : Type} (r : Except Err α) : Prog α := fun h => (r, h)

/-- An output call that returns nothing -/
def emit (ev : Event) : Prog Unit := fun h => (.ok (), h ++ [ev])

/-- The statement `promise.catch(handler)` on the outcome of a promise -/
def catchTo {α : Type} (r : Except Err α) (handler : Err → α) : α :=
  match r with
  | .ok a => a
  | .error e => handler e

/-- The promises `rs` settle one at a time in the order `schedule`: a fulfilled one stores
its value in its own slot, the first rejected one rejects the whole -/
def settle {α : Type} (rs : List (Except Err α)) :
    List Nat → List (Option α) → Except Err (List (Option α))
  | [], slots => .ok slots
  | i :: schedule, slots =>
    match rs[i]? with
    | none => settle rs schedule slots
    | some (.error e) => .error e
    | some (.ok v) => settle rs schedule (slots.set i (some v))

/-- The statement `Promise.all(rs)` when the promises settle in the order `order` (the
promises `order` leaves out settle after the others, by index): the values by position -/
def promiseAll {α : Type} (order : List Nat) (rs : List (Except Err α)) :
    Except Err (List α) :=
  match settle rs (order ++ List.range rs.length) (List.replicate rs.length none) with
  | .error e => .error e
  | .ok slots => .ok slots.reduceOption

/-- The statement `await Promise.all(rs)` -/
def awaitAll {Num α : Type} (env : Env Num) (rs : List (Except Err α)) : Prog (List α) :=
  fun h => (promiseAll (env.completionOrder h) rs, h)

/-- The callback of `array.map` run on each element in turn -/
def mapCalls {α β : Type} (f : α → Prog β) : List α → Prog (List β)
  | [] => pure []
  | a :: rest => do
    let b ← f a
    let bs ← mapCalls f rest
    pure (b :: bs)

/-- Reading a property of a value that may be `undefined` -/
def defined {α : Type} (v : Option α) (property : String) : Prog α :=
  match v with
  | some a => pure a
  | none => raise (typeError ("Cannot read property \x27" ++ property ++ "\x27 of undefined"))

/-! ## Numbers -/

/-- Number of binary digits of `n`, counted in at most `fuel` halvings -/
def bitLengthAux : Nat → Nat → Nat
  | 0, _ => 0
  | fuel + 1, n => if n = 0 then 0 else bitLengthAux fuel (n / 2) + 1

/-- Number of binary digits of `n` -/
def bitLength (n : Nat) : Nat := bitLengthAux n n

/-- The double nearest to the integer `n` (53 significant bits, ties to even); from `2^1024`
on, past the largest double, it is `Infinity` -/
def nearestDouble (n : Nat) : JSInt :=
  let sh := bitLength n - 53
  let q := n / 2 ^ sh
  let r := n % 2 ^ sh
  let up := decide (2 ^ sh < 2 * r) || (decide (2 * r = 2 ^ sh) && decide (q % 2 = 1))
  let m := (if up then q + 1 else q) * 2 ^ sh
  if bitLength m ≤ 1024 then .int m else .infinity false

/-- The test `x > 0` on an integral number -/
def JSInt.gtZero : JSInt → Bool
  | .nan => false
  | .infinity negative => !negative
  | .int value => decide (0 < value)

/-- The method `toNumber()` of a big number that holds a natural number -/
def bigNumberToNumber (n : Nat) : JSInt := nearestDouble n

/-- The characters `parseInt` skips at the start: white space and line terminators -/
def isWhiteSpace (c : Char) : Bool :=
  [9, 10, 11, 12, 13, 32, 160, 5760, 8232, 8233, 8239, 8287, 12288, 65279].contains c.toNat
    || (decide (8192 ≤ c.toNat) && decide (c.toNat ≤ 8202))

/-- The value of a run of decimal digits -/
def digitsValue (ds : List Char) : Nat :=
  ds.foldl (fun acc c => 10 * acc + (c.toNat - 48)) 0

/-- The builtin `parseInt(text, 10)`: leading white space, an optional sign, then the longest
run of decimal digits; the value is a double -/
def parseInt (text : String) : JSInt :=
  let cs := text.toList.dropWhile isWhiteSpace
  let negative := cs.head? == some '-'
  let cs := if cs.head? == some '-' || cs.head? == some '+' then cs.tail else cs
  let ds := cs.takeWhile Char.isDigit
  if ds.isEmpty then .nan
  else
    match nearestDouble (digitsValue ds) with
    | .int value => .int (if negative then -value else value)
    | .infinity _ => .infinity negative
    | .nan => .nan

/-- Drop the zeros at the end -/
def stripTrailingZeros (ds : List Char) : List Char :=
  (ds.reverse.dropWhile (fun c => c == '0')).reverse

/-- The method `toString()` of a big number that holds a natural number (bignumber.js):
plain digits below `10^21`, exponential form from there on -/
def bigNumberToString (n : Nat) : String :=
  let ds := Nat.toDigits 10 n
  if ds.length ≤ 21 then String.mk ds
  else
    let coeff := stripTrailingZeros ds
    let mantissa := if 1 < coeff.length then coeff.take 1 ++ '.' :: coeff.drop 1 else coeff
    String.mk mantissa ++ "e+" ++ String.mk (Nat.toDigits 10 (ds.length - 1))

/-- The `amount` argument of `sendRLC`: the big number `sweep` passes, or the text of the
command line -/
inductive TokenAmount
  | bigNumber (n : Nat)
  | text (s : String)
  deriving DecidableEq

/-- The text of a token amount, as a template literal and `parseInt` see it -/
def TokenAmount.toString : TokenAmount → String
  | .bigNumber n => bigNumberToString n
  | .text s => s

/-- The function `web3.fromWei(balance, ETHER)` -/
def fromWei (balance : Nat) : Ether := ⟨balance⟩

/-! ## The module -/

section Module

variable {Num : Type}

def WALLET_FILE_NAME : String := "wallet.json"

def OVERWRITE_CONFIRMATION : String :=
  WALLET_FILE_NAME ++ " already exists, replace it with new wallet?"

def CREATE_CONFIRMATION : String :=
  "You don\x27t have a " ++ WALLET_FILE_NAME ++ " yet, create one?"

/-- The value of `to` when the caller leaves it out -/
def defaultTo : String := "iexec"

/-- One confirm question of `inquirer.prompt`; the result is the answer under its name -/
def confirm (env : Env Num) (name message : String) : Prog Bool :=
  call (.prompt name message) (fun h => env.prompt h name message)

def walletFromPrivKey (env : Env Num) (privateKey : Option String) : Prog Wallet := do
  let publicKey ← lift (env.privateToPublic privateKey)
  let address ← lift (env.publicToAddress publicKey)
  pure { privateKey := privateKey, publicKey := publicKey, address := address }

def save (env : Env Num) (userWallet : Wallet) : Prog Unit :=
  let userJSONWallet := env.stringifyWallet userWallet
  attempt
    (do
      let fd ← call (.fsOpen WALLET_FILE_NAME "wx") (fun h => env.fsOpen h WALLET_FILE_NAME "wx")
      call (.fsWrite fd userJSONWallet) (fun h => env.fsWrite h fd userJSONWallet)
      call (.fsClose fd) (fun h => env.fsClose h fd))
    (fun error =>
      if error.code = some "EEXIST" then do
        let overwrite ← confirm env "overwrite" OVERWRITE_CONFIRMATION
        if overwrite then
          call (.writeFile WALLET_FILE_NAME userJSONWallet)
            (fun h => env.writeFile h WALLET_FILE_NAME userJSONWallet)
        else
          emit (.consoleLog "keeping old wallet")
      else
        raise error)

def create (env : Env Num) : Prog Wallet := do
  let userWallet ← call .genKeyPair env.genKeyPair
  save env userWallet
  emit (.consoleLog "Wallet successfully created!")
  pure userWallet

def load (env : Env Num) : Prog Wallet :=
  attempt
    (do
      let userWalletJSON ← call (.readFile WALLET_FILE_NAME "utf8")
        (fun h => env.readFile h WALLET_FILE_NAME "utf8")
      let privateKey ← lift (env.parsePrivateKey userWalletJSON)
      walletFromPrivKey env privateKey)
    (fun error =>
      if error.code = some "ENOENT" then do
        let answer ← confirm env "create" CREATE_CONFIRMATION
        if answer then create env
        else raise (jsError "Aborting. You need a wallet to continue")
      else
        raise error)

/-- An entry of `ethFaucets`.  Calling `getETH` gives a promise (or a plain value): the
calls it makes are recorded and the result is the outcome the promise settles with -/
structure EthFaucet (Num : Type) where
  chainName : String
  name : String
  getETH : Env Num → String → Prog (Except Err Json)

/-- The two steps `.then(res => res.json()).catch(() => (error: ETH faucet is down.))` -/
def jsonOrDown (r : Except Err Response) : Except Err Json :=
  .ok (catchTo (r.bind (fun res => res.json)) (fun _ => .obj1 "error" "ETH faucet is down."))

def ethFaucets : List (EthFaucet Num) :=
  [ { chainName := "ropsten"
      name := "faucet.ropsten.be"
      getETH := fun env address => do
        let req : Request :=
          { url := "http://faucet.ropsten.be:3001/donate/" ++ address
            method := "GET", headers := [], body := none }
        let r ← issue (.fetch req) (fun h => env.fetch h req)
        pure (jsonOrDown r) },
    { chainName := "ropsten"
      name := "ropsten.faucet.b9lab.com"
      getETH := fun env address => do
        let req : Request :=
          { url := "https://ropsten.faucet.b9lab.com/tap"
            method := "POST"
            headers := [("Accept", "application/json"), ("Content-Type", "application/json")]
            body := some (.obj1 "toWhom" ("0x" ++ address)) }
        let r ← issue (.fetch req) (fun h => env.fetch h req)
        pure (jsonOrDown r) },
    { chainName := "rinkeby"
      name := "faucet.rinkeby.io"
      getETH := fun _ _ =>
        pure (.ok (.obj1 "message" "Go to https://faucet.rinkeby.io/ to manually ask for ETH")) },
    { chainName := "kovan"
      name := "gitter.im/kovan-testnet/faucet"
      getETH := fun _ _ =>
        pure (.ok (.obj1 "message"
          "Go to https://gitter.im/kovan-testnet/faucet to manually ask for ETH")) } ]

/-- The text `JSON.stringify(responses[index], null, TAB)` inside `concat` -/
def stringifyAt (responses : List Json) (index : Nat) : String :=
  match responses[index]? with
  | some r => r.stringify
  | none => "undefined"

/-- The `reduce` that builds `responsesMessage` from the faucet names and the responses -/
def responsesMessage (names : List String) (responses : List Json) : String :=
  names.enum.foldl
    (fun accu ic => accu ++ "- " ++ ic.2 ++ " : \n" ++ stringifyAt responses ic.1 ++ "\n\n")
    ""

/-- The list `filteredFaucets` of `getETH`: the faucets of the chain, in the order of
`ethFaucets` -/
def filteredFaucets (chainName : String) : List (EthFaucet Num) :=
  ethFaucets.filter (fun e => e.chainName == chainName)

/-- The callback of `filteredFaucets.map` in `getETH` -/
def askFaucet (env : Env Num) (address : String) (faucet : EthFaucet Num) :
    Prog (Except Err Json) :=
  faucet.getETH env address

def getETH (env : Env Num) (chainName : String) : Prog Unit :=
  attempt
    (do
      let userWallet ← load env
      emit (.spinner "start" ("Requesting ETH from " ++ chainName ++ " faucets..."))
      let faucets : List (EthFaucet Num) := filteredFaucets chainName
      let promises ← mapCalls (askFaucet env userWallet.address) faucets
      let responses ← awaitAll env promises
      let message := responsesMessage (faucets.map (fun f => f.name)) responses
      emit (.spinner "succeed" "Faucets responses:\n")
      emit (.consoleLog message))
    (fun error => do
      emit (.spinner "fail" ("getETH() failed with " ++ error.render))
      raise error)

/-- An entry of `rlcFaucets` -/
structure RlcFaucet (Num : Type) where
  name : String
  getRLC : Env Num → String → String → Prog (Except Err Json)

def rlcFaucets : List (RlcFaucet Num) :=
  [ { name := "faucet.iex.ec"
      getRLC := fun env chainName address => do
        let req : Request :=
          { url := "https://api.faucet.iex.ec/getRLC?chainName=" ++ chainName
              ++ "&address=" ++ address
            method := "GET", headers := [], body := none }
        let r ← issue (.fetch req) (fun h => env.fetch h req)
        pure (r.bind (fun res => res.json)) } ]

def getRLC (env : Env Num) (chainName : String) : Prog Unit :=
  attempt
    (do
      let userWallet ← load env
      emit (.spinner "start" ("Requesting " ++ chainName ++ " faucet for nRLC..."))
      let promises ← mapCalls (fun faucet => faucet.getRLC env chainName userWallet.address)
        (rlcFaucets : List (RlcFaucet Num))
      let responses ← awaitAll env promises
      let message :=
        responsesMessage ((rlcFaucets : List (RlcFaucet Num)).map (fun f => f.name)) responses
      emit (.spinner "succeed" "Faucets responses:\n")
      emit (.consoleLog message))
    (fun error => do
      emit (.spinner "fail" ("getRLC() failed with " ++ error.render))
      raise error)

/-- An element of `ethBalances`: the big number of `fromWei`, or the number `0` the
`catch` returns -/
inductive EthBalance
  | ether (e : Ether)
  | zero
  deriving DecidableEq

def EthBalance.render (env : Env Num) : EthBalance → String
  | .ether e => env.etherToString e
  | .zero => "0"

/-- The text of `names[index]` inside a template literal -/
def nameAt (names : List String) (index : Nat) : String :=
  match names[index]? with
  | some name => name
  | none => "undefined"

/-- The `reduce` over `ethBalances` that builds `ethBalancesString` -/
def ethBalancesString (env : Env Num) (networkNames : List String) (address : String)
    (ethBalances : List EthBalance) : String :=
  ethBalances.enum.foldl
    (fun accu ic => accu ++ ("  " ++ nameAt networkNames ic.1 ++ ": \t " ++ ic.2.render env
      ++ " ETH \t\t https://" ++ nameAt networkNames ic.1 ++ ".etherscan.io/address/"
      ++ address ++ "\n"))
    ""

/-- The text of `rlcBalances[index]` inside a template literal -/
def balanceAt (rlcBalances : List Nat) (index : Nat) : String :=
  match rlcBalances[index]? with
  | some b => bigNumberToString b
  | none => "undefined"

/-- The `reduce` over `chainIDs` that builds `rlcBalancesString`; reading the name of a
chain that is not there throws -/
def rlcBalancesString (chains : String → Option Chain) (chainIDs : List String)
    (rlcBalances : List Nat) : Except Err String :=
  chainIDs.enum.foldl
    (fun accu ic =>
      match accu, chains ic.2 with
      | .ok text, some chain =>
        .ok (text ++ ("  " ++ chain.name ++ ": \t " ++ balanceAt rlcBalances ic.1 ++ " nRLC\n"))
      | .ok _, none => .error (typeError "Cannot read property \x27name\x27 of undefined")
      | .error e, _ => .error e)
    (.ok "")

/-- The native-coin part of `show` (lines 210 to 229): one balance query per configured
network, a failed query counting as `0`, then the report -/
def showEth (env : Env Num) (userWallet : Wallet) (chains : String → Option Chain) :
    Prog Unit := do
  let networkNames := env.networkNames
  let ethPromises ← mapCalls
    (fun name => do
      let chain ← defined (chains name) "web3"
      let r ← issue (.getBalance chain userWallet.address)
        (fun h => env.getBalance h chain userWallet.address)
      pure (Except.ok (catchTo (r.map (fun balance => EthBalance.ether (fromWei balance)))
        (fun _ => EthBalance.zero))))
    networkNames
  let ethBalances ← awaitAll env ethPromises
  emit (.spinner "info" "ETH balances:\n")
  emit (.consoleLog
    (ethBalancesString env networkNames userWallet.address ethBalances ++ " " ++ "\n"))
  emit (.consoleLog "Run \"iexec wallet getETH\" to top up your ETH account\n")

/-- The token part of `show` (lines 231 to 251): one `balanceOf` query per chain that has a
token contract, then the report -/
def showRlc (env : Env Num) (userWallet : Wallet) (chains : String → Option Chain) :
    Prog Unit := do
  emit (.spinner "start" "Checking nRLC balances...")
  let chainIDs := (env.rlcNetworks.map (fun kv => kv.1)).filter (fun id => (chains id).isSome)
  let rlcPromises ← mapCalls
    (fun id => do
      let network ← defined (env.rlcNetworks.lookup id) "address"
      let chain ← defined (chains id) "web3"
      issue (.balanceOf chain network ("0x" ++ userWallet.address))
        (fun h => env.balanceOf h chain network ("0x" ++ userWallet.address)))
    chainIDs
  let rlcBalances ← awaitAll env rlcPromises
  emit (.spinner "info" "nRLC balances:\n")
  let text ← lift (rlcBalancesString chains chainIDs rlcBalances)
  emit (.consoleLog (text ++ " " ++ "\n"))
  emit (.consoleLog "Run \"iexec wallet getRLC\" to top up your nRLC account\n")

/-- The `catch` block of `show` -/
def showFailed (error : Err) : Prog Unit := do
  emit (.spinner "fail" ("show() failed with " ++ error.render))
  raise error

def «show» (env : Env Num) : Prog Unit :=
  attempt
    (do
      let userWallet ← load env
      emit (.spinner "info" "Wallet:\n")
      emit (.consoleLog (env.stringifyWallet userWallet ++ " " ++ "\n"))
      emit (.spinner "start" "Checking ETH balances...")
      let chains ← lift env.getChains
      showEth env userWallet chains
      showRlc env userWallet chains)
    showFailed

/-- The message of the confirmation question of `sendETH` -/
def ethQuestion (env : Env Num) (chainName : String) (amount : Num) (toName : String) :
    String :=
  "Do you want to send " ++ env.numToString amount ++ " " ++ chainName ++ " ETH to " ++ toName

def sendETH (env : Env Num) (chainName : String) (amount : Num) (toName : String) :
    Prog Unit :=
  attempt
    (do
      let userWallet ← load env
      let toAddress ← lift (env.getOracleWallet toName)
      let transfer ← confirm env "transfer" (ethQuestion env chainName amount toName)
      if !transfer then raise (jsError "Transfer aborted by user.")
      emit (.spinner "start"
        ("Sending " ++ env.numToString amount ++ " " ++ chainName ++ " ETH to " ++ toName
          ++ "..."))
      let chains ← lift env.getChains
      let chain ← defined (chains chainName) "web3"
      let tx : TxRequest :=
        { chain := chain, userWallet := userWallet, unsignedTx := none
          contractAddress := toAddress, value := some (env.toWei amount) }
      let txHash ← call (.signAndSendTx tx) (fun h => env.signAndSendTx h tx)
      emit (.spinner "info" ("transfer txHash: " ++ txHash ++ " \n"))
      emit (.spinner "start" "waiting for transaction to be mined")
      let txReceipt ← call (.waitFor chain txHash) (fun h => env.waitFor h chain txHash)
      emit (.spinner "info"
        ("View on etherscan: " ++ (env.chainToEtherscanURL chainName
          ++ txReceipt.transactionHash) ++ "\n"))
      emit (.spinner "succeed"
        (env.numToString amount ++ " " ++ chainName ++ " ETH sent to " ++ toName ++ "\n")))
    (fun error => do
      emit (.spinner "fail" ("sendETH() failed with " ++ error.render))
      raise error)

/-- Modelled from the spec: `utils.checkTxReceipt(txReceipt, gasLimit)`, defined in
`utils.js`, which is not among the sources; "a receipt whose `gasUsed` equals the full
`gasLimit` sent is treated as a reverted/failed execution [...], not a success" -/
def checkTxReceipt (txReceipt : Receipt) (gasLimit : Nat) : Except Err Unit :=
  if txReceipt.gasUsed = gasLimit then
    .error ⟨"TransactionFailed", none, "gasUsed equals the full gasLimit sent"⟩
  else .ok ()

/-- The message of the confirmation question of `sendRLC` -/
def rlcQuestion (chainName : String) (amount : TokenAmount) (toName : String) : String :=
  "Do you want to send " ++ amount.toString ++ " " ++ chainName ++ " nRLC to " ++ toName

def sendRLC (env : Env Num) (chainName : String) (amount : TokenAmount) (toName : String) :
    Prog Unit :=
  attempt
    (do
      let userWallet ← load env
      let toAddress ← lift (env.getFaucetWallet toName)
      let transfer ← confirm env "transfer" (rlcQuestion chainName amount toName)
      if !transfer then raise (jsError "Transfer aborted by user.")
      emit (.spinner "start"
        ("Sending " ++ amount.toString ++ " " ++ chainName ++ " nRLC to " ++ toName ++ "..."))
      let chains ← lift env.getChains
      let chain ← defined (chains chainName) "id"
      let rlcAddress ← defined (env.rlcNetworks.lookup chain.id) "address"
      let transferAmount := parseInt amount.toString
      let unsignedTx : TransferData := { toAddress := toAddress, amount := transferAmount }
      let tx : TxRequest :=
        { chain := chain, userWallet := userWallet, unsignedTx := some unsignedTx
          contractAddress := rlcAddress, value := none }
      let txHash ← call (.signAndSendTx tx) (fun h => env.signAndSendTx h tx)
      emit (.spinner "info" ("transfer txHash: " ++ txHash ++ " \n"))
      emit (.spinner "start" "waiting for transaction to be mined")
      let txReceipt ← call (.waitFor chain txHash) (fun h => env.waitFor h chain txHash)
      let sent ← call (.getTransaction chain txHash) (fun h => env.getTransaction h chain txHash)
      let sentTx ← defined sent "gas"
      lift (checkTxReceipt txReceipt sentTx.gas)
      emit (.spinner "info"
        ("View on etherscan: " ++ (env.chainToEtherscanURL chainName
          ++ txReceipt.transactionHash) ++ "\n"))
      emit (.spinner "succeed"
        (amount.toString ++ " " ++ chainName ++ " nRLC sent to " ++ toName ++ "\n")))
    (fun error => do
      emit (.spinner "fail" ("sendRLC() failed with " ++ error.render))
      raise error)

def sweep (env : Env Num) (chainName : String) (toName : String) : Prog Unit :=
  attempt
    (do
      let userWallet ← load env
      let chains ← lift env.getChains
      let chain ← defined (chains chainName) "id"
      let rlcAddress ← defined (env.rlcNetworks.lookup chain.id) "address"
      let rlcBalance ← call (.balanceOf chain rlcAddress ("0x" ++ userWallet.address))
        (fun h => env.balanceOf h chain rlcAddress ("0x" ++ userWallet.address))
      if (bigNumberToNumber rlcBalance).gtZero then
        sendRLC env chainName (.bigNumber rlcBalance) toName
      let ethBalance ← call (.getBalance chain userWallet.address)
        (fun h => (env.getBalance h chain userWallet.address).map fromWei)
      let ethToSweep := env.sub (env.toNumber ethBalance) env.reserve
      if env.gtZero ethToSweep then sendETH env chainName ethToSweep toName
      emit (.spinner "succeed" ("wallet swept to " ++ toName ++ "\n")))
    (fun error => do
      emit (.spinner "fail" ("sweep() failed with " ++ error.render))
      raise error)

end Module

/-! ## Observations on a history -/

/-- The event is a call of `utils.signAndSendTx` -/
def Event.isTransfer : Event → Bool
  | .signAndSendTx _ => true
  | _ => false

/-- The event is a call of `utils.signAndSendTx` with a `value`: a native-coin transfer -/
def Event.isNativeTransfer : Event → Bool
  | .signAndSendTx tx => tx.value.isSome
  | _ => false

/-- The transaction handed to `utils.signAndSendTx`, when the event is such a call -/
def Event.sentTx : Event → Option TxRequest
  | .signAndSendTx tx => some tx
  | _ => none

/-- The transactions handed to `utils.signAndSendTx`, in order -/
def transfers (h : History) : List TxRequest := h.filterMap Event.sentTx

/-- The program only appends to the history, and each call it appends satisfies `P` -/
def Emits {α : Type} (P : Event → Prop) (m : Prog α) : Prop :=
  ∀ h, ∃ evs, (m h).2 = h ++ evs ∧ ∀ ev ∈ evs, P ev

/-! ## Texts and calls named in the statements -/

/-- The texts of a list one after the other -/
def concatAll : List String → String
  | [] => ""
  | s :: rest => s ++ concatAll rest

/-- The part of `responsesMessage` for one faucet: its name, then its response -/
def faucetEntry (name : String) (response : Json) : String :=
  "- " ++ name ++ " : \n" ++ response.stringify ++ "\n\n"

/-- The first lines `getETH` prints, before it calls the faucets -/
def getETHStart (chainName : String) : List Event :=
  [.spinner "start" ("Requesting ETH from " ++ chainName ++ " faucets...")]

/-- What `show` prints before it queries the native balances -/
def showStart {Num : Type} (env : Env Num) (userWallet : Wallet) : List Event :=
  [.spinner "info" "Wallet:\n",
    .consoleLog (env.stringifyWallet userWallet ++ " " ++ "\n"),
    .spinner "start" "Checking ETH balances..."]

/-- The balance queries `show` sends for the networks `names`, in order -/
def ethQueries (chains : String → Option Chain) (address : String) (names : List String) :
    List Event :=
  names.filterMap (fun name => (chains name).map (fun chain => Event.getBalance chain address))

/-- The line of `ethBalancesString` for one network: its name, then its balance -/
def ethLine {Num : Type} (env : Env Num) (address name : String) (balance : EthBalance) :
    String :=
  "  " ++ name ++ ": \t " ++ balance.render env ++ " ETH \t\t https://" ++ name
    ++ ".etherscan.io/address/" ++ address ++ "\n"

/-- The native-coin report of `show` with one line per network, for the balances given -/
def ethReport {Num : Type} (env : Env Num) (address : String) (names : List String)
    (balances : List EthBalance) : List Event :=
  [.spinner "info" "ETH balances:\n",
    .consoleLog (concatAll (List.zipWith (ethLine env address) names balances) ++ " " ++ "\n"),
    .consoleLog "Run \"iexec wallet getETH\" to top up your ETH account\n"]

/-! ## A sample environment -/

deriving instance DecidableEq for Except

def sampleWallet : Wallet := ⟨some "11", "04ab", "c0ffee"⟩

def ropsten : Chain := ⟨"3", "ropsten"⟩

def kovan : Chain := ⟨"42", "kovan"⟩

def sampleRlcAddress : String := "0x7314dc4d7794b5e7894212ca1556ae8e3de58621"

/-- The chains of the sample environment, by name and by id -/
def sampleChains (key : String) : Option Chain :=
  if key = "ropsten" ∨ key = "3" then some ropsten
  else if key = "kovan" ∨ key = "42" then some kovan
  else none

/-- The history after the wallet file was read -/
def sampleLoaded : History := [.readFile "wallet.json" "utf8"]

/-- A wallet file that is there, the chains ropsten and kovan (whose node is down) with a
token contract on ropsten, amounts counted exactly in wei.  `accept` is the answer to every
question, `online` tells whether the faucets and the token contract answer, then come the
token balance, the native balance in wei and the gas every receipt reports; every
transaction was sent with a gas limit of 21000 -/
def sampleEnv (accept online : Bool) (tokenBalance weiBalance gasUsed : Nat) : Env Int where
  readFile := fun _ _ _ => .ok "wallet"
  fsOpen := fun _ _ _ => .ok 3
  fsWrite := fun _ _ _ => .ok ()
  fsClose := fun _ _ => .ok ()
  writeFile := fun _ _ _ => .ok ()
  prompt := fun _ _ _ => .ok accept
  genKeyPair := fun _ => .ok sampleWallet
  privateToPublic := fun _ => .ok "04ab"
  publicToAddress := fun _ => .ok "c0ffee"
  stringifyWallet := fun _ => "wallet"
  parsePrivateKey := fun _ => .ok (some "11")
  fetch := fun _ _ =>
    if online then .ok ⟨.ok (.raw "\"sent\"")⟩ else .error (jsError "network down")
  completionOrder := fun _ => [1, 0]
  getChains := .ok sampleChains
  networkNames := ["ropsten", "kovan"]
  rlcNetworks := [("3", sampleRlcAddress)]
  getOracleWallet := fun t => .ok t
  getFaucetWallet := fun t => .ok t
  chainToEtherscanURL := fun c => "https://" ++ c ++ ".etherscan.io/tx/"
  signAndSendTx := fun _ _ => .ok "0xf00d"
  waitFor := fun _ _ txHash => .ok ⟨txHash, gasUsed⟩
  getBalance := fun _ chain _ =>
    if chain = kovan then .error (jsError "connection refused") else .ok weiBalance
  balanceOf := fun _ _ _ _ =>
    if online then .ok tokenBalance else .error (jsError "connection refused")
  getTransaction := fun _ _ _ => .ok (some ⟨21000⟩)
  toWei := fun n => toString n
  toNumber := fun e => (e.wei : Int)
  reserve := 10 ^ 16
  sub := fun a b => a - b
  gtZero := fun a => decide (0 < a)
  numToString := fun n => toString n ++ " wei"
  etherToString := fun e => toString e.wei ++ "e-18"

/-! ## Proofs -/

section Proofs

variable {Num α β γ : Type}

/-! ## Running programs -/

theorem bind_run (m : Prog α) (f : α → Prog β) (h : History) :
    (m >>= f) h = Prog.bind m f h := rfl

theorem bind_ok {m : Prog α} {f : α → Prog β} {h h1 : History} {a : α}
    (hm : m h = (.ok a, h1)) : (m >>= f) h = f a h1 := by
  show Prog.bind m f h = _
  simp [Prog.bind, hm]

theorem bind_error {m : Prog α} {f : α → Prog β} {h h1 : History} {e : Err}
    (hm : m h = (.error e, h1)) : (m >>= f) h = (.error e, h1) := by
  show Prog.bind m f h = _
  simp [Prog.bind, hm]

theorem attempt_ok {m : Prog α} {handler : Err → Prog α} {h h1 : History} {a : α}
    (hm : m h = (.ok a, h1)) : attempt m handler h = (.ok a, h1) := by
  simp [attempt, hm]

theorem attempt_error {m : Prog α} {handler : Err → Prog α} {h h1 : History} {e : Err}
    (hm : m h = (.error e, h1)) : attempt m handler h = handler e h1 := by
  simp [attempt, hm]

theorem Emits.pure {P : Event → Prop} (a : α) : Emits P (pure a : Prog α) :=
  fun h => ⟨[], by simp [Pure.pure], by simp⟩

theorem Emits.raise {P : Event → Prop} (e : Err) : Emits P (raise e : Prog α) :=
  fun h => ⟨[], by simp [Iexec.raise], by simp⟩

theorem Emits.lift {P : Event → Prop} (r : Except Err α) : Emits P (lift r) :=
  fun h => ⟨[], by simp [Iexec.lift], by simp⟩

theorem Emits.emit {P : Event → Prop} {ev : Event} (hev : P ev) : Emits P (emit ev) :=
  fun h => ⟨[ev], by simp [Iexec.emit], by simpa using hev⟩

theorem Emits.call {P : Event → Prop} {ev : Event} (hev : P ev)
    (oracle : History → Except Err α) : Emits P (call ev oracle) :=
  fun h => ⟨[ev], by simp [Iexec.call], by simpa using hev⟩

theorem Emits.bind {P : Event → Prop} {m : Prog α} {f : α → Prog β} (hm : Emits P m)
    (hf : ∀ a, Emits P (f a)) : Emits P (m >>= f) := by
  intro h
  obtain ⟨evs, he, hp⟩ := hm h
  rcases hmh : m h with ⟨r, h1⟩
  rw [hmh] at he
  simp only at he
  subst he
  cases r with
  | error e => exact ⟨evs, by rw [bind_error hmh], hp⟩
  | ok a =>
    obtain ⟨evs2, he2, hp2⟩ := hf a (h ++ evs)
    refine ⟨evs ++ evs2, by rw [bind_ok hmh, he2, List.append_assoc], ?_⟩
    intro ev hev
    rcases List.mem_append.mp hev with h1 | h2
    · exact hp ev h1
    · exact hp2 ev h2

theorem Emits.attempt {P : Event → Prop} {m : Prog α} {handler : Err → Prog α}
    (hm : Emits P m) (hh : ∀ e, Emits P (handler e)) : Emits P (attempt m handler) := by
  intro h
  obtain ⟨evs, he, hp⟩ := hm h
  rcases hmh : m h with ⟨r, h1⟩
  rw [hmh] at he
  simp only at he
  subst he
  cases r with
  | ok a => exact ⟨evs, by rw [attempt_ok hmh], hp⟩
  | error e =>
    obtain ⟨evs2, he2, hp2⟩ := hh e (h ++ evs)
    refine ⟨evs ++ evs2, by rw [attempt_error hmh, he2, List.append_assoc], ?_⟩
    intro ev hev
    rcases List.mem_append.mp hev with h1 | h2
    · exact hp ev h1
    · exact hp2 ev h2

theorem Emits.ite {P : Event → Prop} {c : Prop} [Decidable c] {m1 m2 : Prog α}
    (h1 : Emits P m1) (h2 : Emits P m2) : Emits P (if c then m1 else m2) := by
  split
  · exact h1
  · exact h2

theorem Emits.defined {P : Event → Prop} (v : Option α) (property : String) :
    Emits P (defined v property) := by
  cases v with
  | none => exact Emits.raise _
  | some a => exact Emits.pure a

theorem Emits.confirm {P : Event → Prop} (env : Env Num) (name message : String)
    (hev : P (.prompt name message)) : Emits P (confirm env name message) :=
  Emits.call hev _


theorem save_emits {P : Event → Prop} (hP : ∀ ev, ev.isTransfer = false → P ev)
    (env : Env Num) (userWallet : Wallet) : Emits P (save env userWallet) := by
  unfold save
  repeat first
    | exact Emits.call (hP _ rfl) _
    | exact Emits.emit (hP _ rfl)
    | exact Emits.confirm _ _ _ (hP _ rfl)
    | exact Emits.raise _
    | exact Emits.pure _
    | exact Emits.lift _
    | refine Emits.bind ?_ (fun _ => ?_)
    | refine Emits.attempt ?_ (fun _ => ?_)
    | refine Emits.ite ?_ ?_

theorem create_emits {P : Event → Prop} (hP : ∀ ev, ev.isTransfer = false → P ev)
    (env : Env Num) : Emits P (create env) := by
  unfold create
  repeat first
    | exact save_emits hP _ _
    | exact Emits.call (hP _ rfl) _
    | exact Emits.emit (hP _ rfl)
    | exact Emits.pure _
    | refine Emits.bind ?_ (fun _ => ?_)

theorem load_emits {P : Event → Prop} (hP : ∀ ev, ev.isTransfer = false → P ev)
    (env : Env Num) : Emits P (load env) := by
  unfold load walletFromPrivKey
  repeat first
    | exact create_emits hP _
    | exact Emits.call (hP _ rfl) _
    | exact Emits.emit (hP _ rfl)
    | exact Emits.confirm _ _ _ (hP _ rfl)
    | exact Emits.raise _
    | exact Emits.pure _
    | exact Emits.lift _
    | refine Emits.bind ?_ (fun _ => ?_)
    | refine Emits.attempt ?_ (fun _ => ?_)
    | refine Emits.ite ?_ ?_

/-! ## `Promise.all` -/

theorem settle_fulfilled (vals : List α) :
    ∀ (schedule : List Nat) (slots : List (Option α)),
      slots.length = vals.length →
      (∀ i : Nat, slots[i]? = some none ∨ slots[i]? = vals[i]?.map some) →
      ∃ slots1, settle (vals.map Except.ok) schedule slots = .ok slots1 ∧
        slots1.length = vals.length ∧
        (∀ i : Nat, slots1[i]? = some none ∨ slots1[i]? = vals[i]?.map some) ∧
        (∀ i : Nat, slots[i]? = vals[i]?.map some → slots1[i]? = vals[i]?.map some) ∧
        (∀ i : Nat, i ∈ schedule → slots1[i]? = vals[i]?.map some) := by
  intro schedule
  induction schedule with
  | nil =>
    intro slots hlen hinv
    exact ⟨slots, rfl, hlen, hinv, fun _ hi => hi, by simp⟩
  | cons j schedule ih =>
    intro slots hlen hinv
    by_cases hj : j < vals.length
    · have hset : ∀ i : Nat, (slots.set j (some vals[j]))[i]? =
          if j = i then some (some vals[j]) else slots[i]? := by
        intro i
        rw [List.getElem?_set]
        by_cases hji : j = i
        · subst hji
          have hj2 : j < slots.length := by omega
          simp [hj2]
        · simp [hji]
      obtain ⟨slots1, hrun, hlen1, hinv1, hkeep, hsched⟩ :=
        ih (slots.set j (some vals[j])) (by simpa using hlen) (by
          intro i
          rw [hset]
          by_cases hji : j = i
          · subst hji
            right
            simp [hj]
          · simpa [hji] using hinv i)
      have hfilled : slots1[j]? = vals[j]?.map some := by
        apply hkeep
        rw [hset]
        simp [hj]
      refine ⟨slots1, ?_, hlen1, hinv1, ?_, ?_⟩
      · simp [settle, hj, hrun]
      · intro i hi
        apply hkeep
        rw [hset]
        by_cases hji : j = i
        · subst hji
          simp [hj]
        · simpa [hji] using hi
      · intro i hi
        rcases List.mem_cons.mp hi with rfl | hi
        · exact hfilled
        · exact hsched i hi
    · obtain ⟨slots1, hrun, hlen1, hinv1, hkeep, hsched⟩ := ih slots hlen hinv
      have hnone : vals[j]? = none := by simp [Nat.le_of_not_lt hj]
      refine ⟨slots1, ?_, hlen1, hinv1, hkeep, ?_⟩
      · simp [settle, hnone, hrun]
      · intro i hi
        rcases List.mem_cons.mp hi with rfl | hi
        · rw [hnone]
          have : slots1[i]? = none := by simp [hlen1, Nat.le_of_not_lt hj]
          simp [this]
        · exact hsched i hi

theorem reduceOption_map_some (vals : List α) : (vals.map some).reduceOption = vals := by
  induction vals with
  | nil => rfl
  | cons a rest ih => simp [List.reduceOption_cons_of_some, ih]

/-- When every promise is fulfilled, `Promise.all` gives the values by position, whatever
the order in which they settle -/
theorem promiseAll_fulfilled (order : List Nat) (vals : List α) :
    promiseAll order (vals.map Except.ok) = .ok vals := by
  obtain ⟨slots1, hrun, hlen1, -, -, hsched⟩ :=
    settle_fulfilled vals (order ++ List.range vals.length)
      (List.replicate vals.length none) (by simp) (by
        intro i
        by_cases hi : i < vals.length
        · left
          rw [List.getElem?_replicate]
          simp [hi]
        · right
          rw [List.getElem?_replicate]
          have hnone : vals[i]? = none := List.getElem?_eq_none (Nat.le_of_not_lt hi)
          simp [hi, hnone])
  have hslots : slots1 = vals.map some := by
    apply List.ext_getElem?
    intro i
    rw [List.getElem?_map]
    by_cases hi : i < vals.length
    · exact hsched i (List.mem_append_right _ (List.mem_range.mpr hi))
    · have hnone : vals[i]? = none := List.getElem?_eq_none (Nat.le_of_not_lt hi)
      have hnone1 : slots1[i]? = none := List.getElem?_eq_none (by omega)
      rw [hnone, hnone1]
      rfl
  unfold promiseAll
  simp only [List.length_map]
  rw [hrun, hslots]
  simp only [reduceOption_map_some]

theorem awaitAll_fulfilled (env : Env Num) (vals : List α) (h : History) :
    awaitAll env (vals.map Except.ok) h = (.ok vals, h) := by
  simp [awaitAll, promiseAll_fulfilled]

/-! ## `array.map` and `reduce` -/

theorem mapCalls_fulfilled (f : α → Prog (Except Err γ)) (evs : α → List Event) :
    ∀ (l : List α) (h : History),
      (∀ a ∈ l, ∀ h, ∃ r, f a h = (.ok (.ok r), h ++ evs a)) →
      ∃ rs : List γ, mapCalls f l h = (.ok (rs.map Except.ok), h ++ (l.map evs).flatten) ∧
        rs.length = l.length ∧
        ∀ (i : Nat) (a : α), l[i]? = some a →
          ∃ r, rs[i]? = some r ∧
            f a (h ++ ((l.take i).map evs).flatten)
              = (.ok (.ok r), h ++ ((l.take i).map evs).flatten ++ evs a) := by
  intro l
  induction l with
  | nil =>
    intro h _
    exact ⟨[], by simp [mapCalls, Pure.pure], rfl, by simp⟩
  | cons a rest ih =>
    intro h hf
    obtain ⟨r, hr⟩ := hf a (List.mem_cons_self a rest) h
    obtain ⟨rs, hrun, hlen, hpt⟩ :=
      ih (h ++ evs a) (fun b hb => hf b (List.mem_cons_of_mem a hb))
    refine ⟨r :: rs, ?_, by simp [hlen], ?_⟩
    · simp [mapCalls, bind_run, Prog.bind, hr, hrun, Pure.pure]
    · intro i b hi
      cases i with
      | zero =>
        simp at hi
        subst hi
        exact ⟨r, by simp, by simpa using hr⟩
      | succ i =>
        simp at hi
        obtain ⟨r1, hr1, hrun1⟩ := hpt i b hi
        exact ⟨r1, by simpa using hr1, by simpa [List.append_assoc] using hrun1⟩

theorem mapCalls_history (f : α → Prog (Except Err γ)) (evs : α → List Event) (l : List α)
    (h : History) (hf : ∀ a ∈ l, ∀ h, ∃ r, f a h = (.ok (.ok r), h ++ evs a)) :
    (mapCalls f l h).2 = h ++ (l.map evs).flatten := by
  obtain ⟨rs, hrun, -, -⟩ := mapCalls_fulfilled f evs l h hf
  rw [hrun]

theorem concatAll_fold (g : Nat → α → String) :
    ∀ (names : List α) (k : Nat) (accu : String),
      (names.enumFrom k).foldl (fun accu ic => accu ++ g ic.1 ic.2) accu
        = accu ++ concatAll ((names.enumFrom k).map (fun ic => g ic.1 ic.2)) := by
  intro names
  induction names with
  | nil => intro k accu; simp [concatAll]
  | cons name rest ih =>
    intro k accu
    simp only [List.enumFrom_cons, List.foldl_cons, List.map_cons, concatAll]
    rw [ih, String.append_assoc]

/-! ## Declined sends -/

/-- Claim C5. For every send (`sendETH` or `sendRLC`) in which the wallet is loaded, the
destination resolves and the user declines the confirmation question, the operation ends
by raising `Transfer aborted by user.`, and among the calls it made there is no
`utils.signAndSendTx`: nothing is signed or sent to the chain -/
theorem send_declined_aborts (env : Env Num) (chainName toName : String) (h h1 : History)
    (userWallet : Wallet) (hload : load env h = (.ok userWallet, h1)) :
    (∀ (amount : Num) (toAddress : String),
        env.getOracleWallet toName = .ok toAddress →
        env.prompt h1 "transfer" (ethQuestion env chainName amount toName) = .ok false →
        ∃ evs, sendETH env chainName amount toName h
            = (.error (jsError "Transfer aborted by user."), h ++ evs) ∧
          ∀ ev ∈ evs, ev.isTransfer = false) ∧
    (∀ (amount : TokenAmount) (toAddress : String),
        env.getFaucetWallet toName = .ok toAddress →
        env.prompt h1 "transfer" (rlcQuestion chainName amount toName) = .ok false →
        ∃ evs, sendRLC env chainName amount toName h
            = (.error (jsError "Transfer aborted by user."), h ++ evs) ∧
          ∀ ev ∈ evs, ev.isTransfer = false) := by
  obtain ⟨evs0, he0, hp0⟩ := load_emits (P := fun ev => ev.isTransfer = false)
    (fun _ hev => hev) env h
  rw [hload] at he0
  simp only at he0
  subst he0
  constructor
  · intro amount toAddress hto hprompt
    refine ⟨evs0 ++ [.prompt "transfer" (ethQuestion env chainName amount toName),
      .spinner "fail" ("sendETH() failed with " ++ (jsError "Transfer aborted by user.").render)],
      ?_, ?_⟩
    · simp [sendETH, attempt, bind_run, Prog.bind, hload, lift, hto, confirm, call, hprompt,
        raise, emit]
    · intro ev hev
      rcases List.mem_append.mp hev with h1 | h2
      · exact hp0 ev h1
      · simp at h2
        rcases h2 with rfl | rfl <;> rfl
  · intro amount toAddress hto hprompt
    refine ⟨evs0 ++ [.prompt "transfer" (rlcQuestion chainName amount toName),
      .spinner "fail" ("sendRLC() failed with " ++ (jsError "Transfer aborted by user.").render)],
      ?_, ?_⟩
    · simp [sendRLC, attempt, bind_run, Prog.bind, hload, lift, hto, confirm, call, hprompt,
        raise, emit]
    · intro ev hev
      rcases List.mem_append.mp hev with h1 | h2
      · exact hp0 ev h1
      · simp at h2
        rcases h2 with rfl | rfl <;> rfl

theorem send_declined_aborts_witness :
    (∃ evs, sendETH (sampleEnv false true 0 0 0) "ropsten" (10 ^ 18) "iexec" []
        = (.error (jsError "Transfer aborted by user."), [] ++ evs) ∧
      ∀ ev ∈ evs, ev.isTransfer = false) ∧
    (∃ evs, sendRLC (sampleEnv false true 0 0 0) "ropsten" (.text "1") "iexec" []
        = (.error (jsError "Transfer aborted by user."), [] ++ evs) ∧
      ∀ ev ∈ evs, ev.isTransfer = false) :=
  ⟨(send_declined_aborts (sampleEnv false true 0 0 0) "ropsten" "iexec" [] sampleLoaded
      sampleWallet (by decide)).1 (10 ^ 18) "iexec" (by decide) (by decide),
    (send_declined_aborts (sampleEnv false true 0 0 0) "ropsten" "iexec" [] sampleLoaded
      sampleWallet (by decide)).2 (.text "1") "iexec" (by decide) (by decide)⟩

/-! ## `getETH` -/

theorem responsesMessage_eq (names : List String) (responses : List Json)
    (hlen : responses.length = names.length) :
    responsesMessage names responses = concatAll (List.zipWith faucetEntry names responses) := by
  have hfold := concatAll_fold
    (fun index name => "- " ++ name ++ " : \n" ++ stringifyAt responses index ++ "\n\n")
    names 0 ""
  have hentries : ∀ (names : List String) (k : Nat),
      names.length + k = responses.length →
      (names.enumFrom k).map
          (fun ic => "- " ++ ic.2 ++ " : \n" ++ stringifyAt responses ic.1 ++ "\n\n")
        = List.zipWith faucetEntry names (responses.drop k) := by
    intro names
    induction names with
    | nil => intro k _; simp
    | cons name rest ih =>
      intro k hk
      have hk1 : k < responses.length := by simp at hk; omega
      rw [List.drop_eq_getElem_cons hk1]
      simp only [List.enumFrom_cons, List.map_cons, List.zipWith_cons_cons]
      rw [ih (k + 1) (by simp at hk; omega)]
      simp [faucetEntry, stringifyAt, hk1]
  have h0 := hentries names 0 (by simp [hlen])
  simp only [List.drop_zero] at h0
  unfold responsesMessage
  rw [List.enum]
  have hfold2 : List.foldl
      (fun accu (ic : Nat × String) =>
        accu ++ "- " ++ ic.2 ++ " : \n" ++ stringifyAt responses ic.1 ++ "\n\n") ""
      (List.enumFrom 0 names)
      = "" ++ concatAll ((List.enumFrom 0 names).map
          (fun ic => "- " ++ ic.2 ++ " : \n" ++ stringifyAt responses ic.1 ++ "\n\n")) := by
    rw [← hfold]
    congr 1
    funext accu ic
    simp [String.append_assoc]
  rw [hfold2, h0]
  simp

theorem ethFaucet_fulfilled (env : Env Num) (address : String) :
    ∀ faucet ∈ (ethFaucets : List (EthFaucet Num)), ∀ h : History,
      ∃ r, faucet.getETH env address h
        = (.ok (.ok r), h ++ (faucet.getETH env address []).2) := by
  intro faucet hmem h
  simp only [ethFaucets, List.mem_cons, List.mem_singleton, List.not_mem_nil, or_false]
    at hmem
  rcases hmem with rfl | rfl | rfl | rfl <;>
    simp [issue, bind_run, Prog.bind, jsonOrDown, Pure.pure]

/-- Claim C10. For every chain name and every order in which the faucet calls complete,
once the wallet is loaded `getETH` succeeds and prints one entry per configured
native-coin faucet whose `chainName` is the requested one and none for the others, in the
order of `ethFaucets`; entry `i` pairs the name of the `i`-th matching faucet with the
response that same faucet gave when it was called.  The matching faucets are
`filteredFaucets chainName`: the members of `ethFaucets` with that `chainName`, in the same
order -/
theorem getETH_entries (env : Env Num) (chainName : String) (h h1 : History)
    (userWallet : Wallet) (hload : load env h = (.ok userWallet, h1)) :
    (∀ faucet : EthFaucet Num, faucet ∈ filteredFaucets chainName ↔
      faucet ∈ ethFaucets ∧ faucet.chainName = chainName) ∧
    (filteredFaucets chainName : List (EthFaucet Num)).Sublist ethFaucets ∧
    ∃ responses : List Json,
      responses.length = (filteredFaucets chainName : List (EthFaucet Num)).length ∧
      (∀ (i : Nat) (faucet : EthFaucet Num),
        (filteredFaucets chainName : List (EthFaucet Num))[i]? = some faucet →
        ∃ r, responses[i]? = some r ∧
          (faucet.getETH env userWallet.address
            (mapCalls (askFaucet env userWallet.address)
              ((filteredFaucets chainName).take i) (h1 ++ getETHStart chainName)).2).1
            = .ok (.ok r)) ∧
      getETH env chainName h
        = (.ok (),
          (mapCalls (askFaucet env userWallet.address) (filteredFaucets chainName)
              (h1 ++ getETHStart chainName)).2
            ++ [.spinner "succeed" "Faucets responses:\n",
                .consoleLog (concatAll (List.zipWith faucetEntry
                  ((filteredFaucets chainName : List (EthFaucet Num)).map (fun f => f.name))
                  responses))]) := by
  refine ⟨fun faucet => by simp [filteredFaucets, List.mem_filter],
    List.filter_sublist _, ?_⟩
  generalize hfl : (filteredFaucets chainName : List (EthFaucet Num)) = filtered
  have hsub : ∀ faucet ∈ filtered, faucet ∈ (ethFaucets : List (EthFaucet Num)) := by
    intro faucet hmem
    rw [← hfl] at hmem
    exact List.mem_of_mem_filter hmem
  have hful : ∀ l : List (EthFaucet Num), (∀ faucet ∈ l, faucet ∈ filtered) →
      ∀ faucet ∈ l, ∀ h : History, ∃ r, askFaucet env userWallet.address faucet h
        = (.ok (.ok r), h ++ (faucet.getETH env userWallet.address []).2) :=
    fun l hl faucet hmem => ethFaucet_fulfilled env userWallet.address faucet
      (hsub faucet (hl faucet hmem))
  obtain ⟨responses, hrun, hlen, hpt⟩ :=
    mapCalls_fulfilled (askFaucet env userWallet.address)
      (fun f => (f.getETH env userWallet.address []).2) filtered
      (h1 ++ getETHStart chainName) (hful filtered (fun _ hmem => hmem))
  refine ⟨responses, hlen, ?_, ?_⟩
  · intro i faucet hi
    obtain ⟨r, hr, hcall⟩ := hpt i faucet hi
    refine ⟨r, hr, ?_⟩
    rw [mapCalls_history _ (fun f => (f.getETH env userWallet.address []).2) _ _
      (hful (filtered.take i) (fun _ hmem => List.mem_of_mem_take hmem))]
    have hcall2 : faucet.getETH env userWallet.address
        (h1 ++ getETHStart chainName ++ (List.map
          (fun f => (f.getETH env userWallet.address []).2) (List.take i filtered)).flatten)
        = _ := hcall
    rw [hcall2]
  · rw [hrun]
    simp only [getETH]
    rw [attempt_ok]
    rw [bind_ok hload]
    have hmsg := responsesMessage_eq (filtered.map (fun f => f.name)) responses
      (by simpa using hlen)
    have hrun2 : mapCalls (askFaucet env userWallet.address) filtered
        (h1 ++ [Event.spinner "start" ("Requesting ETH from " ++ chainName ++ " faucets...")])
        = _ := hrun
    simp [hfl, bind_run, Prog.bind, emit, hrun2, awaitAll_fulfilled, hmsg, getETHStart]

theorem getETH_entries_witness :
    (∀ faucet : EthFaucet Int, faucet ∈ filteredFaucets "ropsten" ↔
      faucet ∈ ethFaucets ∧ faucet.chainName = "ropsten") ∧
    (filteredFaucets "ropsten" : List (EthFaucet Int)).Sublist ethFaucets ∧
    ∃ responses : List Json,
      responses.length = (filteredFaucets "ropsten" : List (EthFaucet Int)).length ∧
      (∀ (i : Nat) (faucet : EthFaucet Int),
        (filteredFaucets "ropsten" : List (EthFaucet Int))[i]? = some faucet →
        ∃ r, responses[i]? = some r ∧
          (faucet.getETH (sampleEnv true false 0 0 0) sampleWallet.address
            (mapCalls (askFaucet (sampleEnv true false 0 0 0) sampleWallet.address)
              ((filteredFaucets "ropsten").take i) (sampleLoaded ++ getETHStart "ropsten")).2).1
            = .ok (.ok r)) ∧
      getETH (sampleEnv true false 0 0 0) "ropsten" []
        = (.ok (),
          (mapCalls (askFaucet (sampleEnv true false 0 0 0) sampleWallet.address)
              (filteredFaucets "ropsten") (sampleLoaded ++ getETHStart "ropsten")).2
            ++ [.spinner "succeed" "Faucets responses:\n",
                .consoleLog (concatAll (List.zipWith faucetEntry
                  ((filteredFaucets "ropsten" : List (EthFaucet Int)).map (fun f => f.name))
                  responses))]) :=
  getETH_entries (sampleEnv true false 0 0 0) "ropsten" [] sampleLoaded sampleWallet
    (by decide)

/-! ## Faucets that are missing or down -/

/-- Claim C9, as amended. For every chain name that no native-coin faucet is configured for,
`getETH` does not raise once the wallet is loaded: it calls no faucet and succeeds with an
empty responses message -/
theorem getETH_no_faucet (env : Env Num) (chainName : String) (h h1 : History)
    (userWallet : Wallet) (hload : load env h = (.ok userWallet, h1))
    (hnone : ∀ faucet ∈ (ethFaucets : List (EthFaucet Num)), faucet.chainName ≠ chainName) :
    getETH env chainName h
      = (.ok (),
        h1 ++ [.spinner "start" ("Requesting ETH from " ++ chainName ++ " faucets..."),
          .spinner "succeed" "Faucets responses:\n", .consoleLog ""]) := by
  have hfl : (filteredFaucets chainName : List (EthFaucet Num)) = [] := by
    unfold filteredFaucets
    rw [List.filter_eq_nil_iff]
    intro faucet hmem
    simpa using hnone faucet hmem
  simp only [getETH]
  rw [attempt_ok]
  rw [bind_ok hload]
  have hall : ∀ h : History, awaitAll env ([] : List (Except Err Json)) h = (.ok [], h) :=
    fun h => awaitAll_fulfilled env ([] : List Json) h
  simp [hfl, bind_run, Prog.bind, emit, mapCalls, Pure.pure, hall, responsesMessage]

/-- Claim C9 fails as stated: no native-coin faucet is configured for the chain `mainnet`, and
`getETH` succeeds there with an empty responses message -/
theorem getETH_unknown_chain_succeeds :
    (∀ faucet ∈ (ethFaucets : List (EthFaucet Int)), faucet.chainName ≠ "mainnet") ∧
    getETH (sampleEnv true true 0 0 0) "mainnet" []
      = (.ok (),
        [.readFile "wallet.json" "utf8",
          .spinner "start" "Requesting ETH from mainnet faucets...",
          .spinner "succeed" "Faucets responses:\n", .consoleLog ""]) := by
  decide

theorem getETH_no_faucet_witness :
    load (sampleEnv true false 0 0 0) [] = (.ok sampleWallet, sampleLoaded) ∧
    (∀ faucet ∈ (ethFaucets : List (EthFaucet Int)), faucet.chainName ≠ "goerli") ∧
    getETH (sampleEnv true false 0 0 0) "goerli" []
      = (.ok (),
        sampleLoaded
          ++ [.spinner "start" ("Requesting ETH from " ++ "goerli" ++ " faucets..."),
            .spinner "succeed" "Faucets responses:\n", .consoleLog ""]) :=
  ⟨by decide, by decide,
    getETH_no_faucet (sampleEnv true false 0 0 0) "goerli" [] sampleLoaded sampleWallet
      (by decide) (by decide)⟩

/-- Claim C8 fails for `getRLC`: when the request to the token faucet fails, `getRLC` raises
that error and logs no responses, whereas `getETH` in the same world succeeds with an
error payload for each ropsten faucet -/
theorem getRLC_faucet_down_raises :
    getRLC (sampleEnv true false 0 0 0) "ropsten" []
      = (.error (jsError "network down"),
        [.readFile "wallet.json" "utf8",
          .spinner "start" "Requesting ropsten faucet for nRLC...",
          .fetch ⟨"https://api.faucet.iex.ec/getRLC?chainName=ropsten&address=c0ffee", "GET",
            [], none⟩,
          .spinner "fail" "getRLC() failed with Error: network down"]) ∧
    (getETH (sampleEnv true false 0 0 0) "ropsten" []).1 = .ok () ∧
    ((getETH (sampleEnv true false 0 0 0) "ropsten" []).2.getLast?
      = some (.consoleLog (concatAll
          [faucetEntry "faucet.ropsten.be" (.obj1 "error" "ETH faucet is down."),
           faucetEntry "ropsten.faucet.b9lab.com" (.obj1 "error" "ETH faucet is down.")]))) := by
  decide

/-! ## `show` -/

theorem ethBalancesString_eq (env : Env Num) (names : List String) (address : String)
    (balances : List EthBalance) (hlen : balances.length = names.length) :
    ethBalancesString env names address balances
      = concatAll (List.zipWith (ethLine env address) names balances) := by
  have hfold := concatAll_fold
    (fun index (balance : EthBalance) => ethLine env address (nameAt names index) balance)
    balances 0 ""
  have hentries : ∀ (balances : List EthBalance) (k : Nat),
      balances.length + k = names.length →
      (balances.enumFrom k).map
          (fun ic => ethLine env address (nameAt names ic.1) ic.2)
        = List.zipWith (ethLine env address) (names.drop k) balances := by
    intro balances
    induction balances with
    | nil => intro k _; simp
    | cons balance rest ih =>
      intro k hk
      have hk1 : k < names.length := by simp at hk; omega
      rw [List.drop_eq_getElem_cons hk1]
      simp only [List.enumFrom_cons, List.map_cons, List.zipWith_cons_cons]
      rw [ih (k + 1) (by simp at hk; omega)]
      simp [nameAt, hk1]
  have h0 := hentries balances 0 (by simp [hlen])
  simp only [List.drop_zero] at h0
  unfold ethBalancesString
  rw [List.enum]
  have hfold2 : List.foldl
      (fun accu (ic : Nat × EthBalance) =>
        accu ++ ("  " ++ nameAt names ic.1 ++ ": \t " ++ ic.2.render env
          ++ " ETH \t\t https://" ++ nameAt names ic.1 ++ ".etherscan.io/address/"
          ++ address ++ "\n")) ""
      (List.enumFrom 0 balances)
      = "" ++ concatAll ((List.enumFrom 0 balances).map
          (fun ic => ethLine env address (nameAt names ic.1) ic.2)) := by
    rw [← hfold]
    rfl
  rw [hfold2, h0]
  simp

theorem ethQueries_flatten (chains : String → Option Chain) (address : String)
    (names : List String) :
    (names.map (fun name =>
        ((chains name).map (fun chain => Event.getBalance chain address)).toList)).flatten
      = ethQueries chains address names := by
  induction names with
  | nil => rfl
  | cons name rest ih =>
    unfold ethQueries at ih ⊢
    cases hc : chains name <;> simp [List.filterMap_cons, hc, ih]

/-- Claim C6. In `show`, once the wallet is loaded and every configured network name has
a chain, the native-coin report has exactly one line per configured network, in the order
of the network names; the line of a network whose balance query failed shows `0`, the
line of a network whose query succeeded shows that balance converted from wei; and
however many queries failed, `show` goes on to the token part, whose outcome is the
outcome of the call -/
theorem show_eth_report (env : Env Num) (h h1 : History) (userWallet : Wallet)
    (chains : String → Option Chain) (hload : load env h = (.ok userWallet, h1))
    (hchains : env.getChains = .ok chains)
    (hnames : ∀ name ∈ env.networkNames, (chains name).isSome = true) :
    ∃ balances : List EthBalance,
      balances.length = env.networkNames.length ∧
      (∀ (i : Nat) (name : String) (chain : Chain),
        env.networkNames[i]? = some name → chains name = some chain →
        (∀ e, env.getBalance
            (h1 ++ showStart env userWallet
              ++ ethQueries chains userWallet.address (env.networkNames.take i))
            chain userWallet.address = .error e →
          balances[i]? = some .zero) ∧
        (∀ wei, env.getBalance
            (h1 ++ showStart env userWallet
              ++ ethQueries chains userWallet.address (env.networkNames.take i))
            chain userWallet.address = .ok wei →
          balances[i]? = some (.ether (fromWei wei)))) ∧
      «show» env h
        = attempt (showRlc env userWallet chains) showFailed
          (h1 ++ showStart env userWallet
            ++ ethQueries chains userWallet.address env.networkNames
            ++ ethReport env userWallet.address env.networkNames balances) := by
  generalize hh0 : h1 ++ showStart env userWallet = h0
  have hcall : ∀ name ∈ env.networkNames, ∀ h : History, ∃ r,
      (do
        let chain ← defined (chains name) "web3"
        let r ← issue (.getBalance chain userWallet.address)
          (fun h => env.getBalance h chain userWallet.address)
        pure (Except.ok (catchTo (r.map (fun balance => EthBalance.ether (fromWei balance)))
          (fun _ => EthBalance.zero))) : Prog (Except Err EthBalance)) h
        = (.ok (.ok r),
          h ++ ((chains name).map (fun chain => Event.getBalance chain userWallet.address)).toList) := by
    intro name hmem h
    obtain ⟨chain, hc⟩ := Option.isSome_iff_exists.mp (hnames name hmem)
    simp [hc, defined, issue, bind_run, Prog.bind, Pure.pure]
  obtain ⟨balances, hrun, hlen, hpt⟩ := mapCalls_fulfilled _ _ env.networkNames h0 hcall
  rw [ethQueries_flatten] at hrun
  refine ⟨balances, hlen, ?_, ?_⟩
  · intro i name chain hi hc
    obtain ⟨r, hr, hq⟩ := hpt i name hi
    rw [ethQueries_flatten] at hq
    simp only [hc, defined, issue, bind_run, Prog.bind, Pure.pure, Option.map_some',
      Option.toList_some, Prod.mk.injEq, Except.ok.injEq] at hq
    constructor
    · intro e he
      rw [he] at hq
      rw [hr, ← hq.1]
      rfl
    · intro wei hw
      rw [hw] at hq
      rw [hr, ← hq.1]
      rfl
  · have hstr := ethBalancesString_eq env env.networkNames userWallet.address balances hlen
    have hh0b : h1 ++ [Event.spinner "info" "Wallet:\n",
        Event.consoleLog (env.stringifyWallet userWallet ++ " " ++ "\n"),
        Event.spinner "start" "Checking ETH balances..."] = h0 := hh0
    simp only [«show», showEth]
    simp [attempt, bind_run, Prog.bind, hload, emit, lift, hchains, hh0b, hrun,
      awaitAll_fulfilled, hstr, ethReport]

theorem show_eth_report_witness :
    ∃ balances : List EthBalance,
      balances.length = (sampleEnv true false 0 (10 ^ 18) 0).networkNames.length ∧
      (∀ (i : Nat) (name : String) (chain : Chain),
        (sampleEnv true false 0 (10 ^ 18) 0).networkNames[i]? = some name →
        sampleChains name = some chain →
        (∀ e, (sampleEnv true false 0 (10 ^ 18) 0).getBalance
            (sampleLoaded ++ showStart (sampleEnv true false 0 (10 ^ 18) 0) sampleWallet
              ++ ethQueries sampleChains sampleWallet.address
                ((sampleEnv true false 0 (10 ^ 18) 0).networkNames.take i))
            chain sampleWallet.address = .error e →
          balances[i]? = some .zero) ∧
        (∀ wei, (sampleEnv true false 0 (10 ^ 18) 0).getBalance
            (sampleLoaded ++ showStart (sampleEnv true false 0 (10 ^ 18) 0) sampleWallet
              ++ ethQueries sampleChains sampleWallet.address
                ((sampleEnv true false 0 (10 ^ 18) 0).networkNames.take i))
            chain sampleWallet.address = .ok wei →
          balances[i]? = some (.ether (fromWei wei)))) ∧
      «show» (sampleEnv true false 0 (10 ^ 18) 0) []
        = attempt (showRlc (sampleEnv true false 0 (10 ^ 18) 0) sampleWallet sampleChains)
          showFailed
          (sampleLoaded ++ showStart (sampleEnv true false 0 (10 ^ 18) 0) sampleWallet
            ++ ethQueries sampleChains sampleWallet.address
              (sampleEnv true false 0 (10 ^ 18) 0).networkNames
            ++ ethReport (sampleEnv true false 0 (10 ^ 18) 0) sampleWallet.address
              (sampleEnv true false 0 (10 ^ 18) 0).networkNames balances) :=
  show_eth_report (sampleEnv true false 0 (10 ^ 18) 0) [] sampleLoaded sampleWallet
    sampleChains (by decide) rfl (by decide)

/-! ## `sweep` -/

theorem bitLengthAux_zero (fuel : Nat) : bitLengthAux fuel 0 = 0 := by
  cases fuel <;> simp [bitLengthAux]

theorem bitLengthAux_pos (fuel n : Nat) (hn : 0 < n) (hfuel : n ≤ fuel) :
    0 < bitLengthAux fuel n := by
  cases fuel with
  | zero => omega
  | succ fuel => simp [bitLengthAux, Nat.pos_iff_ne_zero.mp hn]

theorem bitLengthAux_le (fuel : Nat) :
    ∀ n : Nat, 0 < n → n ≤ fuel → 2 ^ (bitLengthAux fuel n - 1) ≤ n := by
  induction fuel with
  | zero => intro n hn hfuel; omega
  | succ fuel ih =>
    intro n hn hfuel
    simp only [bitLengthAux, Nat.pos_iff_ne_zero.mp hn, if_false, Nat.add_sub_cancel]
    by_cases hhalf : n / 2 = 0
    · rw [hhalf, bitLengthAux_zero]
      simpa using hn
    · have hpos : 0 < n / 2 := Nat.pos_of_ne_zero hhalf
      have hle : n / 2 ≤ fuel := by omega
      have h1 := ih (n / 2) hpos hle
      have h2 := bitLengthAux_pos fuel (n / 2) hpos hle
      have h3 : bitLengthAux fuel (n / 2) = (bitLengthAux fuel (n / 2) - 1) + 1 := by omega
      rw [h3, Nat.pow_succ]
      omega

/-- The test `rlcBalance.toNumber() > 0` holds exactly when the balance is positive -/
theorem gtZero_bigNumberToNumber (n : Nat) :
    (bigNumberToNumber n).gtZero = decide (0 < n) := by
  by_cases hn : n = 0
  · subst hn
    rfl
  · have hpos : 0 < n := Nat.pos_of_ne_zero hn
    have hpow : 2 ^ (bitLength n - 53) ≤ n := by
      have h1 := bitLengthAux_le n n hpos (Nat.le_refl n)
      have h2 : 2 ^ (bitLength n - 53) ≤ 2 ^ (bitLengthAux n n - 1) :=
        Nat.pow_le_pow_right (by decide) (by unfold bitLength; omega)
      exact Nat.le_trans h2 h1
    have h2pos : 0 < 2 ^ (bitLength n - 53) := Nat.pos_pow_of_pos _ (by decide)
    have hq : 0 < n / 2 ^ (bitLength n - 53) := Nat.div_pos hpow h2pos
    have hm : ∀ up : Bool,
        0 < (if up = true then n / 2 ^ (bitLength n - 53) + 1
          else n / 2 ^ (bitLength n - 53)) * 2 ^ (bitLength n - 53) := by
      intro up
      apply Nat.mul_pos _ h2pos
      split <;> omega
    simp only [bigNumberToNumber, nearestDouble]
    generalize (decide (2 ^ (bitLength n - 53) < 2 * (n % 2 ^ (bitLength n - 53))) ||
      decide (2 * (n % 2 ^ (bitLength n - 53)) = 2 ^ (bitLength n - 53)) &&
        decide (n / 2 ^ (bitLength n - 53) % 2 = 1)) = up
    have hm1 := hm up
    generalize (if up = true then n / 2 ^ (bitLength n - 53) + 1
      else n / 2 ^ (bitLength n - 53)) * 2 ^ (bitLength n - 53) = m at hm1 ⊢
    by_cases hfin : bitLength m ≤ 1024
    · simp only [hfin, if_true, JSInt.gtZero, hpos, decide_True, decide_eq_true_eq]
      exact_mod_cast hm1
    · simp [hfin, JSInt.gtZero, hpos]

theorem sendRLC_emits (env : Env Num) (chainName : String) (amount : TokenAmount)
    (toName : String) :
    Emits (fun ev => ev.isNativeTransfer = false) (sendRLC env chainName amount toName) := by
  have hP : ∀ ev : Event, ev.isTransfer = false → ev.isNativeTransfer = false := by
    intro ev hev
    cases ev <;> simp_all [Event.isTransfer, Event.isNativeTransfer]
  unfold sendRLC
  repeat first
    | exact load_emits hP _
    | exact Emits.call rfl _
    | exact Emits.emit rfl
    | exact Emits.confirm _ _ _ rfl
    | exact Emits.raise _
    | exact Emits.pure _
    | exact Emits.lift _
    | exact Emits.defined _ _
    | refine Emits.bind ?_ (fun _ => ?_)
    | refine Emits.attempt ?_ (fun _ => ?_)
    | refine Emits.ite ?_ ?_

/-- Claim C1. In `sweep`, whenever the token balance is greater than 0 and the token transfer
`sendRLC` fails with an error, `sweep` fails with that same error, and among the calls it
made there is no native-coin transfer (no `signAndSendTx` with a `value`) -/
theorem sweep_token_failure (env : Env Num) (chainName toName : String) (h h1 h2 : History)
    (userWallet : Wallet) (chains : String → Option Chain) (chain : Chain)
    (rlcAddress : String) (rlcBalance : Nat) (e : Err)
    (hload : load env h = (.ok userWallet, h1))
    (hchains : env.getChains = .ok chains)
    (hchain : chains chainName = some chain)
    (hrlc : env.rlcNetworks.lookup chain.id = some rlcAddress)
    (hbalance : env.balanceOf h1 chain rlcAddress ("0x" ++ userWallet.address)
      = .ok rlcBalance)
    (hpos : 0 < rlcBalance)
    (hsend : sendRLC env chainName (.bigNumber rlcBalance) toName
        (h1 ++ [.balanceOf chain rlcAddress ("0x" ++ userWallet.address)])
      = (.error e, h2)) :
    ∃ evs, sweep env chainName toName h = (.error e, h ++ evs) ∧
      ∀ ev ∈ evs, ev.isNativeTransfer = false := by
  have hP : ∀ ev : Event, ev.isTransfer = false → ev.isNativeTransfer = false := by
    intro ev hev
    cases ev <;> simp_all [Event.isTransfer, Event.isNativeTransfer]
  have hrun : sweep env chainName toName h
      = (.error e, h2 ++ [.spinner "fail" ("sweep() failed with " ++ e.render)]) := by
    simp [sweep, attempt, bind_run, Prog.bind, hload, lift, hchains, hchain, defined, hrlc,
      call, hbalance, gtZero_bigNumberToNumber, hpos, hsend, Pure.pure, emit, raise]
  obtain ⟨evs0, he0, hp0⟩ := load_emits hP env h
  rw [hload] at he0
  simp only at he0
  subst he0
  obtain ⟨evs1, he1, hp1⟩ := sendRLC_emits env chainName (.bigNumber rlcBalance) toName
    (h ++ evs0 ++ [.balanceOf chain rlcAddress ("0x" ++ userWallet.address)])
  rw [hsend] at he1
  simp only at he1
  subst he1
  refine ⟨evs0 ++ [.balanceOf chain rlcAddress ("0x" ++ userWallet.address)] ++ evs1
    ++ [.spinner "fail" ("sweep() failed with " ++ e.render)], ?_, ?_⟩
  · rw [hrun]
    simp
  · intro ev hev
    simp only [List.mem_append, List.mem_singleton] at hev
    rcases hev with ((hev | rfl) | hev) | rfl
    · exact hp0 ev hev
    · rfl
    · exact hp1 ev hev
    · rfl

/-- Claim C3. When the token balance is 0 and the native balance `e` does not satisfy
`e - 0.01 > 0`, `sweep` completes successfully after the two balance queries, and among
the calls it made there is no `signAndSendTx`: neither `sendRLC` nor `sendETH` ran -/
theorem sweep_nothing_to_send (env : Env Num) (chainName toName : String) (h h1 : History)
    (userWallet : Wallet) (chains : String → Option Chain) (chain : Chain)
    (rlcAddress : String) (wei : Nat)
    (hload : load env h = (.ok userWallet, h1))
    (hchains : env.getChains = .ok chains)
    (hchain : chains chainName = some chain)
    (hrlc : env.rlcNetworks.lookup chain.id = some rlcAddress)
    (hbalance : env.balanceOf h1 chain rlcAddress ("0x" ++ userWallet.address) = .ok 0)
    (hnative : env.getBalance
        (h1 ++ [.balanceOf chain rlcAddress ("0x" ++ userWallet.address)])
        chain userWallet.address = .ok wei)
    (hreserve : env.gtZero (env.sub (env.toNumber (fromWei wei)) env.reserve) = false) :
    sweep env chainName toName h
      = (.ok (),
        h1 ++ [.balanceOf chain rlcAddress ("0x" ++ userWallet.address),
          .getBalance chain userWallet.address,
          .spinner "succeed" ("wallet swept to " ++ toName ++ "\n")]) ∧
    ∃ evs, (sweep env chainName toName h).2 = h ++ evs ∧ ∀ ev ∈ evs, ev.isTransfer = false := by
  have hrun : sweep env chainName toName h
      = (.ok (),
        h1 ++ [.balanceOf chain rlcAddress ("0x" ++ userWallet.address),
          .getBalance chain userWallet.address,
          .spinner "succeed" ("wallet swept to " ++ toName ++ "\n")]) := by
    simp [sweep, attempt, bind_run, Prog.bind, hload, lift, hchains, hchain, defined, hrlc,
      call, hbalance, gtZero_bigNumberToNumber, hnative, hreserve, Pure.pure, emit,
      Except.map]
  obtain ⟨evs0, he0, hp0⟩ := load_emits (P := fun ev => ev.isTransfer = false)
    (fun _ hev => hev) env h
  rw [hload] at he0
  simp only at he0
  subst he0
  refine ⟨hrun, evs0 ++ [.balanceOf chain rlcAddress ("0x" ++ userWallet.address),
    .getBalance chain userWallet.address,
    .spinner "succeed" ("wallet swept to " ++ toName ++ "\n")], ?_, ?_⟩
  · rw [hrun]
    simp
  · intro ev hev
    simp only [List.mem_append, List.mem_cons, List.mem_singleton, List.not_mem_nil,
      or_false] at hev
    rcases hev with hev | rfl | rfl | rfl
    · exact hp0 ev hev
    · rfl
    · rfl
    · rfl

theorem sweep_token_failure_witness :
    ∃ evs, sweep (sampleEnv true true 100 (10 ^ 18) 21000) "ropsten" "iexec" []
        = (.error ⟨"TransactionFailed", none, "gasUsed equals the full gasLimit sent"⟩,
          [] ++ evs) ∧
      ∀ ev ∈ evs, ev.isNativeTransfer = false :=
  sweep_token_failure (sampleEnv true true 100 (10 ^ 18) 21000) "ropsten" "iexec" []
    sampleLoaded
    (sampleLoaded ++ [.balanceOf ropsten sampleRlcAddress "0xc0ffee",
      .readFile "wallet.json" "utf8",
      .prompt "transfer" "Do you want to send 100 ropsten nRLC to iexec",
      .spinner "start" "Sending 100 ropsten nRLC to iexec...",
      .signAndSendTx ⟨ropsten, sampleWallet, some ⟨"iexec", .int 100⟩, sampleRlcAddress, none⟩,
      .spinner "info" "transfer txHash: 0xf00d \n",
      .spinner "start" "waiting for transaction to be mined",
      .waitFor ropsten "0xf00d",
      .getTransaction ropsten "0xf00d",
      .spinner "fail"
        "sendRLC() failed with TransactionFailed: gasUsed equals the full gasLimit sent"])
    sampleWallet sampleChains ropsten sampleRlcAddress 100
    ⟨"TransactionFailed", none, "gasUsed equals the full gasLimit sent"⟩
    (by decide) rfl (by decide) (by decide) (by decide) (by decide) (by decide)

theorem sweep_nothing_to_send_witness :
    sweep (sampleEnv true true 0 (5 * 10 ^ 15) 0) "ropsten" "iexec" []
      = (.ok (),
        sampleLoaded ++ [.balanceOf ropsten sampleRlcAddress ("0x" ++ sampleWallet.address),
          .getBalance ropsten sampleWallet.address,
          .spinner "succeed" ("wallet swept to " ++ "iexec" ++ "\n")]) ∧
    ∃ evs, (sweep (sampleEnv true true 0 (5 * 10 ^ 15) 0) "ropsten" "iexec" []).2 = [] ++ evs ∧
      ∀ ev ∈ evs, ev.isTransfer = false :=
  sweep_nothing_to_send (sampleEnv true true 0 (5 * 10 ^ 15) 0) "ropsten" "iexec" []
    sampleLoaded sampleWallet sampleChains ropsten sampleRlcAddress (5 * 10 ^ 15)
    (by decide) rfl (by decide) (by decide) (by decide) (by decide) (by decide)

/-! ## Sends that succeed -/

theorem transfers_append (h evs : History) :
    transfers (h ++ evs) = transfers h ++ transfers evs := by
  simp [transfers, List.filterMap_append]

theorem transfers_of_none (evs : History) (hnone : ∀ ev ∈ evs, ev.isTransfer = false) :
    transfers evs = [] := by
  unfold transfers
  rw [List.filterMap_eq_nil_iff]
  intro ev hev
  have := hnone ev hev
  cases ev <;> simp_all [Event.isTransfer, Event.sentTx]

theorem load_transfers (env : Env Num) (h h1 : History) (r : Except Err Wallet)
    (hload : load env h = (r, h1)) : transfers h1 = transfers h := by
  obtain ⟨evs0, he0, hp0⟩ := load_emits (P := fun ev => ev.isTransfer = false)
    (fun _ hev => hev) env h
  rw [hload] at he0
  simp only at he0
  subst he0
  rw [transfers_append, transfers_of_none evs0 hp0, List.append_nil]

theorem sendETH_ok_transfers (env : Env Num) (chainName : String) (amount : Num)
    (toName : String) (h h2 : History)
    (hrun : sendETH env chainName amount toName h = (.ok (), h2)) :
    ∃ tx : TxRequest, transfers h2 = transfers h ++ [tx] ∧ tx.unsignedTx = none ∧
      tx.value = some (env.toWei amount) := by
  rcases hl : load env h with ⟨r, h1⟩
  have ht := load_transfers env h h1 r hl
  cases r with
  | error e => simp [sendETH, attempt, bind_run, Prog.bind, hl, emit, raise] at hrun
  | ok userWallet =>
    cases hto : env.getOracleWallet toName with
    | error e => simp [sendETH, attempt, bind_run, Prog.bind, hl, lift, hto, emit, raise] at hrun
    | ok toAddress =>
      cases hp : env.prompt h1 "transfer" (ethQuestion env chainName amount toName) with
      | error e =>
        simp [sendETH, attempt, bind_run, Prog.bind, hl, lift, hto, confirm, call, hp, emit,
          raise] at hrun
      | ok answer =>
        cases answer with
        | false =>
          simp [sendETH, attempt, bind_run, Prog.bind, hl, lift, hto, confirm, call, hp,
            emit, raise] at hrun
        | true =>
          cases hch : env.getChains with
          | error e =>
            simp [sendETH, attempt, bind_run, Prog.bind, hl, lift, hto, confirm, call, hp,
              emit, raise, hch, Pure.pure] at hrun
          | ok chains =>
            cases hc : chains chainName with
            | none =>
              simp [sendETH, attempt, bind_run, Prog.bind, hl, lift, hto, confirm, call, hp,
                emit, raise, hch, Pure.pure, hc, defined] at hrun
            | some chain =>
              simp [sendETH, attempt, bind_run, Prog.bind, hl, lift, hto, confirm, call, hp,
                emit, raise, hch, Pure.pure, hc, defined] at hrun
              generalize env.signAndSendTx _ _ = sent at hrun
              cases sent with
              | error e => simp at hrun
              | ok txHash =>
                simp only [] at hrun
                generalize env.waitFor _ _ _ = waited at hrun
                cases waited with
                | error e => simp at hrun
                | ok txReceipt =>
                  simp only [Prod.mk.injEq, true_and] at hrun
                  subst hrun
                  refine ⟨⟨chain, userWallet, none, toAddress, some (env.toWei amount)⟩, ?_,
                    rfl, rfl⟩
                  simp only [transfers_append, ht]
                  simp [transfers, Event.sentTx]

theorem sendRLC_ok_transfers (env : Env Num) (chainName : String) (amount : TokenAmount)
    (toName : String) (h h2 : History)
    (hrun : sendRLC env chainName amount toName h = (.ok (), h2)) :
    ∃ tx : TxRequest, transfers h2 = transfers h ++ [tx] ∧
      tx.unsignedTx.map (fun data => data.amount) = some (parseInt amount.toString) ∧
      tx.value = none := by
  rcases hl : load env h with ⟨r, h1⟩
  have ht := load_transfers env h h1 r hl
  cases r with
  | error e => simp [sendRLC, attempt, bind_run, Prog.bind, hl, emit, raise] at hrun
  | ok userWallet =>
    cases hto : env.getFaucetWallet toName with
    | error e => simp [sendRLC, attempt, bind_run, Prog.bind, hl, lift, hto, emit, raise] at hrun
    | ok toAddress =>
      cases hp : env.prompt h1 "transfer" (rlcQuestion chainName amount toName) with
      | error e =>
        simp [sendRLC, attempt, bind_run, Prog.bind, hl, lift, hto, confirm, call, hp, emit,
          raise] at hrun
      | ok answer =>
        cases answer with
        | false =>
          simp [sendRLC, attempt, bind_run, Prog.bind, hl, lift, hto, confirm, call, hp,
            emit, raise] at hrun
        | true =>
          cases hch : env.getChains with
          | error e =>
            simp [sendRLC, attempt, bind_run, Prog.bind, hl, lift, hto, confirm, call, hp,
              emit, raise, hch, Pure.pure] at hrun
          | ok chains =>
            cases hc : chains chainName with
            | none =>
              simp [sendRLC, attempt, bind_run, Prog.bind, hl, lift, hto, confirm, call, hp,
                emit, raise, hch, Pure.pure, hc, defined] at hrun
            | some chain =>
              cases hr : env.rlcNetworks.lookup chain.id with
              | none =>
                simp [sendRLC, attempt, bind_run, Prog.bind, hl, lift, hto, confirm, call,
                  hp, emit, raise, hch, Pure.pure, hc, defined, hr] at hrun
              | some rlcAddress =>
                simp [sendRLC, attempt, bind_run, Prog.bind, hl, lift, hto, confirm, call,
                  hp, emit, raise, hch, Pure.pure, hc, defined, hr] at hrun
                generalize env.signAndSendTx _ _ = sent at hrun
                cases sent with
                | error e => simp at hrun
                | ok txHash =>
                  simp only [] at hrun
                  generalize env.waitFor _ _ _ = waited at hrun
                  cases waited with
                  | error e => simp at hrun
                  | ok txReceipt =>
                    simp only [] at hrun
                    generalize env.getTransaction _ _ _ = got at hrun
                    cases got with
                    | error e => simp at hrun
                    | ok sent =>
                      cases sent with
                      | none => simp [raise] at hrun
                      | some sentTx =>
                        simp only [] at hrun
                        cases hck : checkTxReceipt txReceipt sentTx.gas with
                        | error e => simp [hck] at hrun
                        | ok u =>
                          simp only [hck, Prod.mk.injEq, true_and] at hrun
                          subst hrun
                          refine ⟨⟨chain, userWallet,
                            some ⟨toAddress, parseInt amount.toString⟩, rlcAddress, none⟩, ?_,
                            rfl, rfl⟩
                          simp only [transfers_append, ht]
                          simp [transfers, Event.sentTx]

/-! ## `sweep` with both transfers -/

/-- What `sweep` does when the token balance is positive, the native balance exceeds the
reserve and every step succeeds: it issues exactly two transfers, first the token transfer,
whose encoded amount is `parseInt` of the text of the balance, then the native-coin
transfer of the balance less the reserve -/
theorem sweep_two_transfers (env : Env Num) (chainName toName : String)
    (h h1 h2 h3 : History) (userWallet : Wallet) (chains : String → Option Chain)
    (chain : Chain) (rlcAddress : String) (rlcBalance wei : Nat)
    (hload : load env h = (.ok userWallet, h1))
    (hchains : env.getChains = .ok chains)
    (hchain : chains chainName = some chain)
    (hrlc : env.rlcNetworks.lookup chain.id = some rlcAddress)
    (hbalance : env.balanceOf h1 chain rlcAddress ("0x" ++ userWallet.address)
      = .ok rlcBalance)
    (hpos : 0 < rlcBalance)
    (hsend : sendRLC env chainName (.bigNumber rlcBalance) toName
        (h1 ++ [.balanceOf chain rlcAddress ("0x" ++ userWallet.address)]) = (.ok (), h2))
    (hnative : env.getBalance h2 chain userWallet.address = .ok wei)
    (hreserve : env.gtZero (env.sub (env.toNumber (fromWei wei)) env.reserve) = true)
    (hsendETH : sendETH env chainName (env.sub (env.toNumber (fromWei wei)) env.reserve)
        toName (h2 ++ [.getBalance chain userWallet.address]) = (.ok (), h3)) :
    sweep env chainName toName h
      = (.ok (), h3 ++ [.spinner "succeed" ("wallet swept to " ++ toName ++ "\n")]) ∧
    ∃ token native : TxRequest,
      transfers (sweep env chainName toName h).2 = transfers h ++ [token, native] ∧
      token.unsignedTx.map (fun data => data.amount)
        = some (parseInt (bigNumberToString rlcBalance)) ∧
      token.value = none ∧
      native.unsignedTx = none ∧
      native.value = some (env.toWei (env.sub (env.toNumber (fromWei wei)) env.reserve)) := by
  have hrun : sweep env chainName toName h
      = (.ok (), h3 ++ [.spinner "succeed" ("wallet swept to " ++ toName ++ "\n")]) := by
    simp [sweep, attempt, bind_run, Prog.bind, hload, lift, hchains, hchain, defined, hrlc,
      call, hbalance, gtZero_bigNumberToNumber, hpos, hsend, hnative, hreserve, hsendETH,
      Pure.pure, emit, Except.map]
  obtain ⟨token, ht, hamount, hvalue⟩ := sendRLC_ok_transfers env chainName
    (.bigNumber rlcBalance) toName _ h2 hsend
  obtain ⟨native, hn, hdata, hnvalue⟩ := sendETH_ok_transfers env chainName _ toName _ h3
    hsendETH
  refine ⟨hrun, token, native, ?_, hamount, hvalue, hdata, hnvalue⟩
  rw [hrun]
  simp only [transfers_append] at ht hn ⊢
  rw [hn, ht, load_transfers env h h1 _ hload]
  simp [transfers, Event.sentTx]

/-! ## The amount `sendRLC` encodes -/

theorem digitChar_digit : ∀ k : Nat, k < 10 →
    (Nat.digitChar k).isDigit = true ∧ (Nat.digitChar k).toNat - 48 = k := by
  decide

theorem digitsValue_append (ds : List Char) (d : Char) :
    digitsValue (ds ++ [d]) = 10 * digitsValue ds + (d.toNat - 48) := by
  simp [digitsValue, List.foldl_append]

theorem toDigitsCore_digits : ∀ (fuel n : Nat) (acc : List Char), n < fuel →
    ∃ ds : List Char, Nat.toDigitsCore 10 fuel n acc = ds ++ acc ∧ digitsValue ds = n ∧
      (∀ c ∈ ds, c.isDigit = true) ∧ ds ≠ [] := by
  intro fuel
  induction fuel with
  | zero => intro n acc hn; omega
  | succ fuel ih =>
    intro n acc hn
    have hd := digitChar_digit (n % 10) (Nat.mod_lt n (by decide))
    by_cases hzero : n / 10 = 0
    · refine ⟨[Nat.digitChar (n % 10)], by simp [Nat.toDigitsCore, hzero], ?_, ?_, by simp⟩
      · have hlt : n < 10 := by omega
        have hd2 := hd.2
        rw [Nat.mod_eq_of_lt hlt] at hd2
        simp [digitsValue, hd2, Nat.mod_eq_of_lt hlt]
      · intro c hc
        simp at hc
        subst hc
        exact hd.1
    · obtain ⟨ds, hrun, hval, hdig, hne⟩ :=
        ih (n / 10) (Nat.digitChar (n % 10) :: acc) (by omega)
      refine ⟨ds ++ [Nat.digitChar (n % 10)], ?_, ?_, ?_, by simp⟩
      · simp [Nat.toDigitsCore, hzero, hrun]
      · rw [digitsValue_append, hval, hd.2]
        omega
      · intro c hc
        rcases List.mem_append.mp hc with hc | hc
        · exact hdig c hc
        · simp at hc
          subst hc
          exact hd.1

theorem bitLengthAux_le_of_lt (fuel : Nat) :
    ∀ (n k : Nat), n < 2 ^ k → bitLengthAux fuel n ≤ k := by
  induction fuel with
  | zero => intro n k _; simp [bitLengthAux]
  | succ fuel ih =>
    intro n k hn
    by_cases hzero : n = 0
    · simp [bitLengthAux, hzero]
    · cases k with
      | zero => simp at hn; omega
      | succ k =>
        simp only [bitLengthAux, hzero, if_false]
        have := ih (n / 2) k (by rw [Nat.pow_succ] at hn; omega)
        omega

theorem nearestDouble_of_lt (n : Nat) (hn : n < 2 ^ 53) : nearestDouble n = .int n := by
  have hlen : bitLength n ≤ 53 := bitLengthAux_le_of_lt n n 53 hn
  have hsh : bitLength n - 53 = 0 := by omega
  have hfin : bitLength n ≤ 1024 := by omega
  simp [nearestDouble, hsh, Nat.mod_one, hfin]

theorem isWhiteSpace_digit (c : Char) (hc : c.isDigit = true) : isWhiteSpace c = false := by
  have h1 : 48 ≤ c.toNat ∧ c.toNat ≤ 57 := by
    simp only [Char.isDigit, Bool.and_eq_true, decide_eq_true_eq] at hc
    exact ⟨hc.1, hc.2⟩
  obtain ⟨hlo, hhi⟩ := h1
  unfold isWhiteSpace
  generalize c.toNat = k at hlo hhi
  interval_cases k <;> decide

/-- Below `2^53` the amount `sendRLC` encodes for a big number is that number -/
theorem parseInt_bigNumberToString (b : Nat) (hb : b < 2 ^ 53) :
    parseInt (bigNumberToString b) = .int b := by
  obtain ⟨ds, hrun, hval, hdig, hne⟩ := toDigitsCore_digits (b + 1) b [] (by omega)
  rw [List.append_nil] at hrun
  have hlen : ds.length ≤ 21 := by
    rw [← hrun]
    exact Nat.toDigitsCore_length 10 (by decide) (b + 1) b 21
      (Nat.lt_of_lt_of_le hb (by decide)) (by decide)
  have hstr : bigNumberToString b = String.mk ds := by
    simp [bigNumberToString, Nat.toDigits, hrun, hlen]
  obtain ⟨d, rest, hds⟩ := List.exists_cons_of_ne_nil hne
  have hdd : d.isDigit = true := hdig d (by simp [hds])
  have hws : isWhiteSpace d = false := isWhiteSpace_digit d hdd
  have hminus : d ≠ '-' := by
    intro hc
    rw [hc] at hdd
    exact absurd hdd (by decide)
  have hplus : d ≠ '+' := by
    intro hc
    rw [hc] at hdd
    exact absurd hdd (by decide)
  have htake : List.takeWhile Char.isDigit ds = ds := by
    rw [List.takeWhile_eq_self_iff]
    exact hdig
  have hdrop : List.dropWhile isWhiteSpace (String.mk ds).toList = ds := by
    simp [hds, List.dropWhile_cons, hws]
  have hhead : ds.head? = some d := by simp [hds]
  have hneg : (some d == some '-') = false := by simp [hminus]
  have hpos : (some d == some '+') = false := by simp [hplus]
  have hemp : ds.isEmpty = false := by simp [hds]
  rw [hstr]
  unfold parseInt
  simp only [hdrop, hhead, hneg, hpos, Bool.or_self, Bool.false_eq_true, if_false, htake,
    hemp, hval, nearestDouble_of_lt b hb]

/-! ## Runs in the sample environment -/

/-- Claim C2 fails on the code for a token balance above `2^53`: with a token balance of
`9007199254740993` and a native balance of one ether, `sweep` succeeds and issues two
transfers, the token one first, but the amount encoded in the token transfer is
`9007199254740992`, not the balance; for a token balance of `100` the amount is `100`.
The native transfer is the balance less the reserve in both runs -/
theorem sweep_token_amount_rounded :
    (sweep (sampleEnv true true 9007199254740993 (10 ^ 18) 20000) "ropsten" "iexec" []).1
      = .ok () ∧
    transfers (sweep (sampleEnv true true 9007199254740993 (10 ^ 18) 20000) "ropsten"
        "iexec" []).2
      = [⟨ropsten, sampleWallet, some ⟨"iexec", .int 9007199254740992⟩, sampleRlcAddress,
          none⟩,
        ⟨ropsten, sampleWallet, none, "iexec", some "990000000000000000"⟩] ∧
    transfers (sweep (sampleEnv true true 100 (10 ^ 18) 20000) "ropsten" "iexec" []).2
      = [⟨ropsten, sampleWallet, some ⟨"iexec", .int 100⟩, sampleRlcAddress, none⟩,
        ⟨ropsten, sampleWallet, none, "iexec", some "990000000000000000"⟩] := by
  decide

/-- Claim C4 fails on the code for `sendETH`: when the receipt reports a `gasUsed` equal
to the gas limit the transaction was sent with (21000), `sendETH` reports success, whereas
`sendRLC` in the same world raises -/
theorem sendETH_full_gas_succeeds :
    (sendETH (sampleEnv true true 0 0 21000) "ropsten" (10 ^ 17) "iexec" []).1 = .ok () ∧
    ((sendETH (sampleEnv true true 0 0 21000) "ropsten" (10 ^ 17) "iexec" []).2.getLast?
      = some (.spinner "succeed" "100000000000000000 wei ropsten ETH sent to iexec\n")) ∧
    (sampleEnv true true 0 0 21000).waitFor [] ropsten "0xf00d" = .ok ⟨"0xf00d", 21000⟩ ∧
    (sampleEnv true true 0 0 21000).getTransaction [] ropsten "0xf00d" = .ok (some ⟨21000⟩) ∧
    (sendRLC (sampleEnv true true 0 0 21000) "ropsten" (.text "5") "iexec" []).1
      = .error ⟨"TransactionFailed", none, "gasUsed equals the full gasLimit sent"⟩ := by
  decide

/-- Claim C7 fails on the code: when the `balanceOf` query of one chain fails, `show`
raises that error after the native-coin report and prints no token report, although the
failed native-coin query of kovan in the same run only counted as `0` -/
theorem show_token_query_failure_raises :
    («show» (sampleEnv true false 0 (10 ^ 18) 0) []).1
      = .error (jsError "connection refused") ∧
    («show» (sampleEnv true false 0 (10 ^ 18) 0) []).2
      = sampleLoaded ++ showStart (sampleEnv true false 0 (10 ^ 18) 0) sampleWallet
        ++ [.getBalance ropsten "c0ffee", .getBalance kovan "c0ffee"]
        ++ ethReport (sampleEnv true false 0 (10 ^ 18) 0) "c0ffee" ["ropsten", "kovan"]
          [.ether ⟨10 ^ 18⟩, .zero]
        ++ [.spinner "start" "Checking nRLC balances...",
          .balanceOf ropsten sampleRlcAddress "0xc0ffee",
          .spinner "fail" "show() failed with Error: connection refused"] := by
  decide

end Proofs

end Iexec
